import Mathlib

/-!
Shallow embedding of the checkpoint retention engine implemented in
src/fimm/custom/timm/utils/checkpoint_saver.py (class CheckpointSaver).

Modelling decisions:
* Metrics are Python floats used only through the comparisons < and >; the
  claims never involve NaN or rounding, so they are embedded as rationals.
* The filesystem is a list of existing path names; file contents are opaque
  (the engine never inspects them, it only creates, links and removes files).
* Python exceptions are modelled with an explicit error type.  An operation
  returns the error (if any) together with the state of the object at the
  moment the exception escaped, because a raised exception leaves the Python
  object partially mutated.
* Fallible OS calls on the primary save path can additionally be made to fail
  through an injected fault, modelling filesystem errors.
* Python 3 raises TypeError when None is compared with a float (or with
  None).  sorted() on two or more elements must compare every element at
  least once, so the sort of the ranked list raises TypeError exactly when
  the list has at least two entries and one of them carries a None metric;
  otherwise it is a stable sort keyed solely on the metric, embedded as
  insertion sort with respect to a total preorder on the key.
-/

namespace CkptSaver

/-- Errors a call can raise: Python TypeError (None compared with a float),
FileExistsError from os.link, and a generic OSError used for injected
filesystem faults. -/
inductive PyErr where
  | typeError
  | fileExists
  | oserror
deriving DecidableEq

/-- Fault-injection points for the primary file operations of
save_checkpoint: serializing to the temp file (line 113), unlinking the old
last file (line 115), renaming temp to last (line 116), hard-linking the
ranked slot (line 127), and unlinking/linking the best slot (lines 145-146). -/
inductive FaultOp where
  | serialize
  | unlinkLast
  | renameLast
  | rankedLink
  | bestUnlink
  | bestLink
deriving DecidableEq

instance {ε α : Type} [DecidableEq ε] [DecidableEq α] : DecidableEq (Except ε α) := fun a b =>
  match a, b with
  | .ok x, .ok y => decidable_of_iff (x = y) (by simp)
  | .error x, .error y => decidable_of_iff (x = y) (by simp)
  | .ok _, .error _ => isFalse (by simp)
  | .error _, .ok _ => isFalse (by simp)

/-- One retained ranked checkpoint: a (filename, metric) tuple, as stored in
self.checkpoint_files. -/
abbrev Entry := String × Option ℚ

/-- Construction-time configuration of CheckpointSaver (lines 77-84 of the
source).  The fields save_pre and recovery_pre embed self.save_prefix and
self.recovery_prefix. -/
structure Config where
  checkpoint_dir : String
  recovery_dir : String
  save_pre : String
  recovery_pre : String
  extension : String
  decreasing : Bool
  max_history : Nat
deriving DecidableEq

/-- The five bookkeeping fields pickled by _save_self_state (lines 185-191). -/
structure SavedRecord where
  best_epoch : Option Nat
  best_metric : Option ℚ
  checkpoint_files : List Entry
  curr_recovery_file : String
  last_recovery_file : String
deriving DecidableEq

/-- Full engine state: the in-memory bookkeeping of CheckpointSaver (lines
70-74), the set of files on disk, and the content of the durable state
record (none while no record has been written). -/
structure SaverState where
  checkpoint_files : List Entry
  best_epoch : Option Nat
  best_metric : Option ℚ
  curr_recovery_file : String
  last_recovery_file : String
  disk : List String
  persisted : Option SavedRecord
deriving DecidableEq

/-- Embedding of os.path.join for the two-argument uses in the source. -/
def joinPath (dir name : String) : String :=
  if dir = "" then name else dir ++ "/" ++ name

/-- Path of the temporary file (line 111). -/
def tmpPath (cfg : Config) : String :=
  joinPath cfg.checkpoint_dir ("tmp" ++ cfg.extension)

/-- Path of the last checkpoint file (line 112). -/
def lastPath (cfg : Config) : String :=
  joinPath cfg.checkpoint_dir ("last" ++ cfg.extension)

/-- Path of the best checkpoint file (line 143). -/
def bestPath (cfg : Config) : String :=
  joinPath cfg.checkpoint_dir ("model_best" ++ cfg.extension)

/-- Path of a ranked checkpoint file (lines 125-126). -/
def rankedPath (cfg : Config) (epoch : Nat) : String :=
  joinPath cfg.checkpoint_dir (cfg.save_pre ++ "-" ++ Nat.repr epoch ++ cfg.extension)

/-- Path of a recovery checkpoint file (lines 224-225). -/
def recoveryPath (cfg : Config) (epoch batch_idx : Nat) : String :=
  joinPath cfg.recovery_dir
    (cfg.recovery_pre ++ "-" ++ Nat.repr epoch ++ "-" ++ Nat.repr batch_idx ++ cfg.extension)

/-- Path of the pickled saver state (lines 89 and 184). -/
def statePath (cfg : Config) : String :=
  joinPath cfg.checkpoint_dir "checkpoint_saver.pkl"

/-- Create (or overwrite) a file: the disk is a set of names. -/
def diskAdd (p : String) (d : List String) : List String :=
  if p ∈ d then d else p :: d

/-- Remove a file name from the disk. -/
def diskRemove (p : String) (d : List String) : List String :=
  d.filter (fun q => q != p)

/-- Embedding of self.cmp = operator.lt if decreasing else operator.gt
(line 83): cmpB d a b is true when a out-ranks b. -/
def cmpB (d : Bool) (a b : ℚ) : Bool :=
  if d then decide (a < b) else decide (b < a)

/-- The best-tracking test of line 138: self.best_metric is None or
cmp(metric, self.best_metric). -/
def bestBeats (d : Bool) (x : ℚ) : Option ℚ → Bool
  | none => true
  | some b => cmpB d x b

/-- Sort key of an entry, line 130: key=lambda x: x[1].  A None metric is
mapped to bottom only to make the key order total; the sort is never run on
a list mixing None with a float (it raises TypeError first), so the value
chosen for None is unobservable. -/
def sortKey : Option ℚ → WithBot ℚ
  | none => ⊥
  | some x => (x : WithBot ℚ)

/-- The total preorder used by the embedded sort, as a boolean: entry a may
stay before entry b.  reverse=not decreasing (line 130), so for decreasing
the order is ascending in the metric and otherwise descending. -/
def entryLEb (cfg : Config) (a b : Entry) : Bool :=
  if cfg.decreasing then decide (sortKey a.2 ≤ sortKey b.2)
  else decide (sortKey b.2 ≤ sortKey a.2)

/-- Propositional form of entryLEb. -/
def entryLE (cfg : Config) (a b : Entry) : Prop :=
  entryLEb cfg a b = true

instance (cfg : Config) : DecidableRel (entryLE cfg) :=
  fun a b => inferInstanceAs (Decidable (entryLEb cfg a b = true))

/-- Embedding of lines 129-131, sorted(self.checkpoint_files, key=lambda x:
x[1], reverse=not self.decreasing).  Python raises TypeError as soon as a
None key is compared with anything, which happens exactly when the list has
at least two elements and contains a None metric; otherwise the result is
the stable sort keyed solely on the metric. -/
def pySortedEntries (cfg : Config) (l : List Entry) : Except PyErr (List Entry) :=
  if 2 ≤ l.length ∧ ∃ e ∈ l, e.2 = none then .error .typeError
  else .ok (List.insertionSort (entryLE cfg) l)

/-- Embedding of the promotion test, lines 117-122: worst_file is the last
element of checkpoint_files (or None), and the test is
len < max_history or metric is None or cmp(metric, worst_file[1]), with
Python TypeError when the comparison touches None. -/
def promotion_decision (cfg : Config) (metric : Option ℚ) (files : List Entry) :
    Except PyErr Bool :=
  if files.length < cfg.max_history then .ok true
  else
    match metric with
    | none => .ok true
    | some m =>
      match files.getLast? with
      | none => .error .typeError
      | some w =>
        match w.2 with
        | none => .error .typeError
        | some wm => .ok (cmpB cfg.decreasing m wm)

/-- Embedding of _cleanup_checkpoints (lines 195-213).  delete_index is an
int in the source, so it is an Int here; failures of the individual
os.remove calls are caught and logged in the source, so file removal is
modelled as always succeeding on the disk set. -/
def cleanup_checkpoints (cfg : Config) (trim : Nat) (s : SaverState) : SaverState :=
  let t := min s.checkpoint_files.length trim
  let delete_index : Int := (cfg.max_history : Int) - t
  if delete_index < 0 ∨ (s.checkpoint_files.length : Int) ≤ delete_index then s
  else
    let k := delete_index.toNat
    let gone := s.checkpoint_files.drop k
    { s with
      disk := gone.foldl (fun d e => diskRemove e.1 d) s.disk,
      checkpoint_files := s.checkpoint_files.take k }

/-- Embedding of lines 111-116 of save_checkpoint: serialize to the temp
file, unlink a pre-existing last file, rename temp to last.  Each of the
three OS calls can be made to fail through the fault parameter. -/
def place_last (cfg : Config) (fault : Option FaultOp) (s : SaverState) :
    Option PyErr × SaverState :=
  if fault = some .serialize then (some .oserror, s)
  else
    let s1 : SaverState := { s with disk := diskAdd (tmpPath cfg) s.disk }
    let go : SaverState → Option PyErr × SaverState := fun s2 =>
      if fault = some .renameLast then (some .oserror, s2)
      else (none, { s2 with disk := diskAdd (lastPath cfg) (diskRemove (tmpPath cfg) s2.disk) })
    if lastPath cfg ∈ s1.disk then
      if fault = some .unlinkLast then (some .oserror, s1)
      else go { s1 with disk := diskRemove (lastPath cfg) s1.disk }
    else go s1

/-- Embedding of the best-tracking block, lines 138-146: if the metric is
present and beats the recorded best, update best_epoch and best_metric, then
replace the fixed best file with a hard link to the last file. -/
def best_step (cfg : Config) (fault : Option FaultOp) (epoch : Nat) (metric : Option ℚ)
    (s : SaverState) : Option PyErr × SaverState :=
  match metric with
  | none => (none, s)
  | some m =>
    if bestBeats cfg.decreasing m s.best_metric then
      let s1 : SaverState := { s with best_epoch := some epoch, best_metric := some m }
      let fin : SaverState → Option PyErr × SaverState := fun s2 =>
        if fault = some .bestLink then (some .oserror, s2)
        else (none, { s2 with disk := diskAdd (bestPath cfg) s2.disk })
      if bestPath cfg ∈ s1.disk then
        if fault = some .bestUnlink then (some .oserror, s1)
        else fin { s1 with disk := diskRemove (bestPath cfg) s1.disk }
      else fin s1
    else (none, s)

/-- Embedding of lines 125-146: hard-link the last file into the ranked slot
(FileExistsError if the target exists, line 127), append the (path, metric)
tuple (line 128), re-sort (lines 129-131), then run the best-tracking block.
The input state is the state after the eviction of line 124, if any. -/
def promote_core (cfg : Config) (fault : Option FaultOp) (epoch : Nat) (metric : Option ℚ)
    (s1 : SaverState) : Option PyErr × SaverState :=
  let sp := rankedPath cfg epoch
  if sp ∈ s1.disk then (some .fileExists, s1)
  else if fault = some .rankedLink then (some .oserror, s1)
  else
    let s2 : SaverState :=
      { s1 with
        disk := diskAdd sp s1.disk,
        checkpoint_files := s1.checkpoint_files ++ [(sp, metric)] }
    match pySortedEntries cfg s2.checkpoint_files with
    | .error e => (some e, s2)
    | .ok l => best_step cfg fault epoch metric { s2 with checkpoint_files := l }

/-- Embedding of the promotion block, lines 123-146: evict one entry first
when the history is at capacity (lines 123-124), then link, append, re-sort
and track the best. -/
def promote_step (cfg : Config) (fault : Option FaultOp) (epoch : Nat) (metric : Option ℚ)
    (s : SaverState) : Option PyErr × SaverState :=
  promote_core cfg fault epoch metric
    (if cfg.max_history ≤ s.checkpoint_files.length then cleanup_checkpoints cfg 1 s else s)

/-- The five bookkeeping fields of a state, in the shape persisted by
_save_self_state. -/
def recordOf (s : SaverState) : SavedRecord :=
  { best_epoch := s.best_epoch
    best_metric := s.best_metric
    checkpoint_files := s.checkpoint_files
    curr_recovery_file := s.curr_recovery_file
    last_recovery_file := s.last_recovery_file }

/-- Embedding of _save_self_state (lines 179-193): pickle the five
bookkeeping fields to the fixed-path state file, fully overwriting it. -/
def save_self_state (cfg : Config) (s : SaverState) : SaverState :=
  { s with
    persisted := some (recordOf s),
    disk := diskAdd (statePath cfg) s.disk }

/-- Embedding of save_checkpoint (lines 102-150).  The returned state is the
object state at return or at the point the exception escaped. -/
def save_checkpoint (cfg : Config) (fault : Option FaultOp) (epoch : Nat) (metric : Option ℚ)
    (s : SaverState) : Except PyErr (Option ℚ × Option Nat) × SaverState :=
  match place_last cfg fault s with
  | (some e, s1) => (.error e, s1)
  | (none, s1) =>
    match promotion_decision cfg metric s1.checkpoint_files with
    | .error e => (.error e, s1)
    | .ok b =>
      match (if b then promote_step cfg fault epoch metric s1 else (none, s1)) with
      | (some e, s2) => (.error e, s2)
      | (none, s2) =>
        let s3 := save_self_state cfg s2
        (.ok (match s3.best_metric with
              | none => (none, none)
              | some bm => (some bm, s3.best_epoch)), s3)

/-- Embedding of save_recovery (lines 215-234): write the new recovery file,
delete the file pointed to by last_recovery_file if it exists (failures of
that delete are caught and logged), rotate the two pointers.  Note that the
source does not call _save_self_state here. -/
def save_recovery (cfg : Config) (epoch batch_idx : Nat) (s : SaverState) : SaverState :=
  let sp := recoveryPath cfg epoch batch_idx
  let s1 : SaverState := { s with disk := diskAdd sp s.disk }
  let s2 :=
    if s1.last_recovery_file ∈ s1.disk then
      { s1 with disk := diskRemove s1.last_recovery_file s1.disk }
    else s1
  { s2 with
    last_recovery_file := s2.curr_recovery_file,
    curr_recovery_file := sp }

/-- Does a file name match the glob recovery_path + "*" + extension used at
line 244?  It must start with the joined recovery prefix and, after that
prefix, end with the extension (the star matches any, possibly empty,
character sequence in between).  Stated over the character lists of the
strings. -/
def globMatch (pre ext f : String) : Bool :=
  List.isPrefixOf pre.data f.data &&
    List.isSuffixOf ext.data (f.data.drop pre.data.length)

/-- Embedding of find_recovery (lines 236-246): glob the recovery directory,
sort the matches lexicographically, return the first one or the empty
string. -/
def find_recovery (cfg : Config) (s : SaverState) : String :=
  let rp := joinPath cfg.recovery_dir cfg.recovery_pre
  let files := s.disk.filter (fun f => globMatch rp cfg.extension f)
  match List.insertionSort (fun a b : String => a ≤ b) files with
  | [] => ""
  | f :: _ => f

/-- The empty state a fresh CheckpointSaver starts from (lines 70-74), with
an empty disk and no durable record. -/
def initState : SaverState :=
  { checkpoint_files := []
    best_epoch := none
    best_metric := none
    curr_recovery_file := ""
    last_recovery_file := ""
    disk := []
    persisted := none }

/-- Run a sequence of save_checkpoint calls, each given as
(fault, epoch, metric), always continuing with the returned state. -/
def runCkpt (cfg : Config) (calls : List (Option FaultOp × Nat × Option ℚ))
    (s : SaverState) : SaverState :=
  calls.foldl (fun st c => (save_checkpoint cfg c.1 c.2.1 c.2.2 st).2) s

/-- Did a save_checkpoint call return normally? -/
def isOkRes (r : Except PyErr (Option ℚ × Option Nat)) : Bool :=
  match r with
  | .ok _ => true
  | .error _ => false

/-- A fault-free sequence of save_checkpoint calls in which every call
returns without raising. -/
def okTrace (cfg : Config) : List (Nat × Option ℚ) → SaverState → Bool
  | [], _ => true
  | c :: rest, s =>
    isOkRes (save_checkpoint cfg none c.1 c.2 s).1 &&
      okTrace cfg rest (save_checkpoint cfg none c.1 c.2 s).2

/-- Run a fault-free sequence of save_checkpoint calls. -/
def runOk (cfg : Config) (calls : List (Nat × Option ℚ)) (s : SaverState) : SaverState :=
  calls.foldl (fun st c => (save_checkpoint cfg none c.1 c.2 st).2) s

/-- Run a sequence of save_recovery calls, each given as (epoch, batch_idx). -/
def runRec (cfg : Config) (calls : List (Nat × Nat)) (s : SaverState) : SaverState :=
  calls.foldl (fun st c => save_recovery cfg c.1 c.2 st) s

/-- Fold one observed metric into the running best, mirroring the update of
lines 138-142. -/
def betterFold (d : Bool) (acc : Option ℚ) (m : Option ℚ) : Option ℚ :=
  match m with
  | none => acc
  | some x => if bestBeats d x acc then some x else acc

/-- The single best value among a list of metrics under the configured
comparison sense. -/
def bestOf (d : Bool) (ms : List ℚ) : Option ℚ :=
  ms.foldl (fun acc x => betterFold d acc (some x)) none

/-- The metrics passed with a value in a fault-free call sequence. -/
def presentMetrics (calls : List (Nat × Option ℚ)) : List ℚ :=
  calls.filterMap (fun c => c.2)

/-- Entry a (earlier in the ranked list) is at least as preferred as entry b
(later), whenever both metrics are present. -/
def presPref (cfg : Config) (a b : Entry) : Prop :=
  ∀ x y, a.2 = some x → b.2 = some y → cmpB cfg.decreasing y x = false

/-- Ranked entries either all carry a metric, or the list is a single entry
with an absent metric. -/
def MetricsOk (l : List Entry) : Prop :=
  (∀ e ∈ l, e.2 ≠ none) ∨ ∃ p, l = [(p, none)]

/-- Every retained present metric is dominated by the recorded best. -/
def BestDom (cfg : Config) (s : SaverState) : Prop :=
  ∀ e ∈ s.checkpoint_files, ∀ x, e.2 = some x →
    ∃ b, s.best_metric = some b ∧ cmpB cfg.decreasing x b = false

/-- State invariant maintained by fault-free successful save_checkpoint
calls. -/
def SInv (cfg : Config) (s : SaverState) : Prop :=
  s.checkpoint_files.length ≤ cfg.max_history ∧
  List.Pairwise (presPref cfg) s.checkpoint_files ∧
  MetricsOk s.checkpoint_files ∧
  BestDom cfg s

/-- Tiny concrete configuration used to evaluate the definitions. -/
def mkCfg (d : Bool) (mh : Nat) : Config :=
  { checkpoint_dir := ""
    recovery_dir := ""
    save_pre := "c"
    recovery_pre := "r"
    extension := ".t"
    decreasing := d
    max_history := mh }

/-! Helper lemmas about the comparison sense. -/

lemma cmpB_irrefl (d : Bool) (x : ℚ) : cmpB d x x = false := by
  cases d <;> simp [cmpB]

lemma cmpB_notbeat_trans {d : Bool} {x w b : ℚ} (h1 : cmpB d x w = false)
    (h2 : cmpB d w b = false) : cmpB d x b = false := by
  cases d <;> simp_all [cmpB] <;> linarith

lemma cmpB_dom_mono {d : Bool} {x b y : ℚ} (h1 : cmpB d x b = false)
    (h2 : cmpB d y b = true) : cmpB d x y = false := by
  cases d <;> simp_all [cmpB] <;> linarith

/-! Helper lemmas about the disk set. -/

lemma mem_diskAdd_self (p : String) (d : List String) : p ∈ diskAdd p d := by
  unfold diskAdd; split <;> simp [*]

lemma mem_diskAdd_of_mem {q : String} (p : String) {d : List String} (h : q ∈ d) :
    q ∈ diskAdd p d := by
  unfold diskAdd; split <;> simp [h]

lemma mem_diskAdd {q p : String} {d : List String} :
    q ∈ diskAdd p d ↔ q = p ∨ q ∈ d := by
  unfold diskAdd
  split
  · simp only [iff_def]
    refine ⟨fun h => Or.inr h, fun h => ?_⟩
    rcases h with h | h
    · subst h; assumption
    · exact h
  · simp [List.mem_cons]

lemma mem_diskRemove {q p : String} {d : List String} :
    q ∈ diskRemove p d ↔ q ∈ d ∧ q ≠ p := by
  simp [diskRemove, List.mem_filter]

lemma nodup_diskAdd (p : String) {d : List String} (h : d.Nodup) :
    (diskAdd p d).Nodup := by
  unfold diskAdd; split
  · exact h
  · exact List.Nodup.cons (by assumption) h

lemma nodup_diskRemove (p : String) {d : List String} (h : d.Nodup) :
    (diskRemove p d).Nodup :=
  List.Nodup.filter _ h

/-! Helper lemmas about place_last. -/

lemma place_last_none_fst (cfg : Config) (s : SaverState) :
    (place_last cfg none s).1 = none := by
  unfold place_last
  split_ifs <;> simp_all [apply_ite]

lemma place_last_state (cfg : Config) (fault : Option FaultOp) (s : SaverState) :
    (place_last cfg fault s).2.checkpoint_files = s.checkpoint_files ∧
    (place_last cfg fault s).2.best_epoch = s.best_epoch ∧
    (place_last cfg fault s).2.best_metric = s.best_metric ∧
    (place_last cfg fault s).2.curr_recovery_file = s.curr_recovery_file ∧
    (place_last cfg fault s).2.last_recovery_file = s.last_recovery_file ∧
    (place_last cfg fault s).2.persisted = s.persisted := by
  unfold place_last
  split_ifs <;> simp [apply_ite]

/-! Helper lemmas about cleanup_checkpoints. -/

lemma cleanup_state (cfg : Config) (t : Nat) (s : SaverState) :
    (cleanup_checkpoints cfg t s).best_epoch = s.best_epoch ∧
    (cleanup_checkpoints cfg t s).best_metric = s.best_metric ∧
    (cleanup_checkpoints cfg t s).curr_recovery_file = s.curr_recovery_file ∧
    (cleanup_checkpoints cfg t s).last_recovery_file = s.last_recovery_file ∧
    (cleanup_checkpoints cfg t s).persisted = s.persisted := by
  simp only [cleanup_checkpoints]
  split <;> simp

lemma cleanup_files_take (cfg : Config) (t : Nat) (s : SaverState) :
    ∃ k, (cleanup_checkpoints cfg t s).checkpoint_files = s.checkpoint_files.take k := by
  simp only [cleanup_checkpoints]
  split
  · exact ⟨s.checkpoint_files.length, by simp⟩
  · exact ⟨_, rfl⟩

lemma cleanup_one_at_capacity (cfg : Config) (s : SaverState) (h1 : 1 ≤ cfg.max_history)
    (h2 : s.checkpoint_files.length = cfg.max_history) :
    (cleanup_checkpoints cfg 1 s).checkpoint_files =
      s.checkpoint_files.take (cfg.max_history - 1) ∧
    (cleanup_checkpoints cfg 1 s).checkpoint_files.length = cfg.max_history - 1 := by
  simp only [cleanup_checkpoints]
  have ht : min s.checkpoint_files.length 1 = 1 := by omega
  rw [ht]
  have hcond : ¬ (((cfg.max_history : Int) - (1 : Nat) < 0) ∨
      ((s.checkpoint_files.length : Int) ≤ (cfg.max_history : Int) - (1 : Nat))) := by
    push_neg
    constructor <;> omega
  rw [if_neg hcond]
  have hk : ((cfg.max_history : Int) - (1 : Nat)).toNat = cfg.max_history - 1 := by omega
  refine ⟨by rw [hk], ?_⟩
  rw [hk]
  simp only [List.length_take]
  omega

/-! Helper lemmas about the embedded sort. -/

lemma entryLE_total (cfg : Config) (a b : Entry) : entryLE cfg a b ∨ entryLE cfg b a := by
  unfold entryLE entryLEb
  split <;> simp only [decide_eq_true_eq] <;> exact le_total _ _

lemma entryLE_trans (cfg : Config) {a b c : Entry} (h1 : entryLE cfg a b)
    (h2 : entryLE cfg b c) : entryLE cfg a c := by
  unfold entryLE entryLEb at h1 h2 ⊢
  by_cases hd : cfg.decreasing = true <;>
    simp only [hd, if_true, if_false, Bool.false_eq_true, decide_eq_true_eq] at h1 h2 ⊢
  · exact le_trans h1 h2
  · exact le_trans h2 h1

lemma not_entryLE_key_ne (cfg : Config) {a b : Entry} (h : ¬ entryLE cfg a b) :
    b.2 ≠ a.2 := by
  intro hk
  apply h
  unfold entryLE entryLEb
  rw [hk]
  split <;> simp

lemma sorted_insertionSort_entryLE (cfg : Config) (l : List Entry) :
    List.Sorted (entryLE cfg) (List.insertionSort (entryLE cfg) l) := by
  haveI : IsTotal Entry (entryLE cfg) := ⟨entryLE_total cfg⟩
  haveI : IsTrans Entry (entryLE cfg) := ⟨fun _ _ _ => entryLE_trans cfg⟩
  exact List.sorted_insertionSort (entryLE cfg) l

/-- Stability of the embedded sort, phrased through filters: for every key
value, the sublist of entries carrying that key is unchanged by the sort.
Together with sortedness this says the sort is a stable sort keyed solely on
the metric. -/
lemma orderedInsert_filter_key (cfg : Config) (q : Option ℚ) (a : Entry) (l : List Entry) :
    (List.orderedInsert (entryLE cfg) a l).filter (fun en => en.2 == q) =
      (a :: l).filter (fun en => en.2 == q) := by
  rw [List.orderedInsert_eq_take_drop]
  by_cases hpa : a.2 = q
  · have htw : ∀ e ∈ l.takeWhile (fun b => decide ¬ entryLE cfg a b),
        (e.2 == q) = false := by
      intro e he
      have hne := List.mem_takeWhile_imp he
      simp only [decide_eq_true_eq] at hne
      have hkey : e.2 ≠ a.2 := not_entryLE_key_ne cfg hne
      rw [← hpa]
      exact beq_eq_false_iff_ne.mpr hkey
    have h1 : (l.takeWhile (fun b => decide ¬ entryLE cfg a b)).filter
        (fun en => en.2 == q) = [] := by
      rw [List.filter_eq_nil_iff]
      intro e he
      simp [htw e he]
    rw [List.filter_append, h1, List.nil_append, List.filter_cons,
      if_pos (by simp [hpa]), List.filter_cons, if_pos (by simp [hpa])]
    have h2 : l.filter (fun en => en.2 == q) =
        (l.dropWhile (fun b => decide ¬ entryLE cfg a b)).filter (fun en => en.2 == q) := by
      conv_lhs =>
        rw [← List.takeWhile_append_dropWhile (fun b => decide ¬ entryLE cfg a b) l]
      rw [List.filter_append, h1, List.nil_append]
    rw [h2]
  · rw [List.filter_append, List.filter_cons, if_neg (by simp [hpa]),
      List.filter_cons, if_neg (by simp [hpa]), ← List.filter_append,
      List.takeWhile_append_dropWhile]

lemma insertionSort_filter_key (cfg : Config) (q : Option ℚ) :
    ∀ l : List Entry,
      (List.insertionSort (entryLE cfg) l).filter (fun en => en.2 == q) =
        l.filter (fun en => en.2 == q)
  | [] => rfl
  | a :: l => by
    rw [List.insertionSort, orderedInsert_filter_key cfg q, List.filter_cons,
      List.filter_cons, insertionSort_filter_key cfg q l]

lemma pySorted_ok_shape (cfg : Config) (l out : List Entry)
    (h : pySortedEntries cfg l = .ok out) :
    out = List.insertionSort (entryLE cfg) l ∧ out.Perm l ∧
      (l.length ≤ 1 ∨ ∀ e ∈ l, e.2 ≠ none) := by
  unfold pySortedEntries at h
  split at h
  · exact absurd h (by simp)
  · refine ⟨by injection h with h2; exact h2.symm, ?_, ?_⟩
    · injection h with h2
      rw [← h2]
      exact List.perm_insertionSort (entryLE cfg) l
    · rename_i hcond
      push_neg at hcond
      by_cases hl : 2 ≤ l.length
      · right
        intro e he
        exact hcond hl e he
      · left; omega

lemma pySorted_err (cfg : Config) (l : List Entry) (h2 : 2 ≤ l.length)
    (e : Entry) (he : e ∈ l) (hn : e.2 = none) :
    pySortedEntries cfg l = .error .typeError := by
  unfold pySortedEntries
  rw [if_pos ⟨h2, e, he, hn⟩]

/-! Helper lemmas about best_step and save_self_state. -/

lemma best_step_none_metric (cfg : Config) (fault : Option FaultOp) (e : Nat)
    (s : SaverState) : best_step cfg fault e none s = (none, s) := rfl

lemma best_step_files (cfg : Config) (fault : Option FaultOp) (e : Nat) (m : Option ℚ)
    (s : SaverState) :
    (best_step cfg fault e m s).2.checkpoint_files = s.checkpoint_files ∧
    (best_step cfg fault e m s).2.curr_recovery_file = s.curr_recovery_file ∧
    (best_step cfg fault e m s).2.last_recovery_file = s.last_recovery_file ∧
    (best_step cfg fault e m s).2.persisted = s.persisted := by
  cases m
  · exact ⟨rfl, rfl, rfl, rfl⟩
  · simp only [best_step]
    split_ifs <;> simp [apply_ite]

lemma best_step_some (cfg : Config) (e : Nat) (x : ℚ) (s : SaverState) :
    (best_step cfg none e (some x) s).1 = none ∧
    (bestBeats cfg.decreasing x s.best_metric = true →
      (best_step cfg none e (some x) s).2.best_epoch = some e ∧
      (best_step cfg none e (some x) s).2.best_metric = some x ∧
      bestPath cfg ∈ (best_step cfg none e (some x) s).2.disk) ∧
    (bestBeats cfg.decreasing x s.best_metric = false →
      best_step cfg none e (some x) s = (none, s)) := by
  simp only [best_step]
  rcases Bool.eq_false_or_eq_true (bestBeats cfg.decreasing x s.best_metric) with hb | hb
  · rw [if_pos hb]
    split_ifs with h1 h2 <;> simp_all [mem_diskAdd_self]
  · rw [if_neg (by simp [hb])]
    refine ⟨rfl, ?_, fun _ => rfl⟩
    intro h
    rw [h] at hb
    exact Bool.noConfusion hb

lemma save_self_fields (cfg : Config) (s : SaverState) :
    (save_self_state cfg s).checkpoint_files = s.checkpoint_files ∧
    (save_self_state cfg s).best_epoch = s.best_epoch ∧
    (save_self_state cfg s).best_metric = s.best_metric ∧
    (save_self_state cfg s).curr_recovery_file = s.curr_recovery_file ∧
    (save_self_state cfg s).last_recovery_file = s.last_recovery_file ∧
    (save_self_state cfg s).persisted = some (recordOf s) := by
  simp [save_self_state]

lemma save_self_disk_mono (cfg : Config) (s : SaverState) {q : String} (h : q ∈ s.disk) :
    q ∈ (save_self_state cfg s).disk :=
  mem_diskAdd_of_mem _ h

lemma recordOf_save_self (cfg : Config) (s : SaverState) :
    recordOf (save_self_state cfg s) = recordOf s := by
  simp [recordOf, save_self_state]

/-! Helper lemmas about the invariants. -/

lemma MetricsOk_take (l : List Entry) (k : Nat) (h : MetricsOk l) :
    MetricsOk (l.take k) := by
  rcases h with h | ⟨p, hp⟩
  · exact Or.inl fun e he => h e (List.mem_of_mem_take he)
  · subst hp
    cases k
    · exact Or.inl (by simp)
    · exact Or.inr ⟨p, by simp⟩

lemma pairwise_take {R : Entry → Entry → Prop} (l : List Entry) (k : Nat)
    (h : List.Pairwise R l) : List.Pairwise R (l.take k) :=
  List.Pairwise.sublist (List.take_sublist k l) h

lemma pairwise_presPref_of_sorted (cfg : Config) (l : List Entry)
    (h : List.Sorted (entryLE cfg) l) : List.Pairwise (presPref cfg) l := by
  refine h.imp ?_
  intro a b hab x y hax hby
  unfold entryLE entryLEb at hab
  rw [hax, hby] at hab
  rcases Bool.eq_false_or_eq_true cfg.decreasing with hd | hd <;>
    rw [hd] at hab <;>
    simp [sortKey] at hab <;>
    simp [cmpB, hd] <;>
    exact hab

/-! Step lemmas: the length bound. -/

lemma promote_core_len (cfg : Config) (fault : Option FaultOp) (e : Nat) (m : Option ℚ)
    (s1 : SaverState) (h1 : s1.checkpoint_files.length + 1 ≤ cfg.max_history) :
    (promote_core cfg fault e m s1).2.checkpoint_files.length ≤ cfg.max_history := by
  simp only [promote_core]
  split_ifs with h2 h3
  · show s1.checkpoint_files.length ≤ cfg.max_history
    omega
  · show s1.checkpoint_files.length ≤ cfg.max_history
    omega
  · rcases hs : pySortedEntries cfg (s1.checkpoint_files ++ [(rankedPath cfg e, m)]) with er | l
    · simp only [hs]
      show (s1.checkpoint_files ++ [(rankedPath cfg e, m)]).length ≤ cfg.max_history
      simp only [List.length_append, List.length_singleton]
      omega
    · simp only [hs]
      rw [(best_step_files cfg fault e m _).1]
      show l.length ≤ cfg.max_history
      have hp := (pySorted_ok_shape cfg _ l hs).2.1.length_eq
      simp only [List.length_append, List.length_singleton] at hp
      omega

lemma promote_step_len (cfg : Config) (fault : Option FaultOp) (e : Nat) (m : Option ℚ)
    (s : SaverState) (hM : 1 ≤ cfg.max_history)
    (h : s.checkpoint_files.length ≤ cfg.max_history) :
    (promote_step cfg fault e m s).2.checkpoint_files.length ≤ cfg.max_history := by
  unfold promote_step
  by_cases hcap : cfg.max_history ≤ s.checkpoint_files.length
  · rw [if_pos hcap]
    have hlen : s.checkpoint_files.length = cfg.max_history := le_antisymm h hcap
    obtain ⟨-, hclen⟩ := cleanup_one_at_capacity cfg s hM hlen
    exact promote_core_len cfg fault e m _ (by omega)
  · rw [if_neg hcap]
    exact promote_core_len cfg fault e m _ (by omega)

lemma save_checkpoint_len (cfg : Config) (fault : Option FaultOp) (e : Nat) (m : Option ℚ)
    (s : SaverState) (hM : 1 ≤ cfg.max_history)
    (h : s.checkpoint_files.length ≤ cfg.max_history) :
    (save_checkpoint cfg fault e m s).2.checkpoint_files.length ≤ cfg.max_history := by
  rcases hpl : place_last cfg fault s with ⟨o, s1⟩
  have hs1 : s1.checkpoint_files = s.checkpoint_files := by
    have := (place_last_state cfg fault s).1
    rw [hpl] at this
    exact this
  rcases o with - | er
  · simp only [save_checkpoint, hpl]
    rcases hpd : promotion_decision cfg m s1.checkpoint_files with er2 | b
    · simp only [hpd]
      rw [hs1]; exact h
    · simp only [hpd]
      rcases b with - | -
      · simp only [if_neg (Bool.false_ne_true)]
        rw [(save_self_fields cfg s1).1, hs1]
        exact h
      · simp only [if_pos rfl]
        rcases hps : promote_step cfg fault e m s1 with ⟨o2, s2⟩
        have hl2 : s2.checkpoint_files.length ≤ cfg.max_history := by
          have := promote_step_len cfg fault e m s1 hM (by rw [hs1]; exact h)
          rw [hps] at this
          exact this
        rcases o2 with - | er3
        · show (save_self_state cfg s2).checkpoint_files.length ≤ cfg.max_history
          rw [(save_self_fields cfg s2).1]
          exact hl2
        · show s2.checkpoint_files.length ≤ cfg.max_history
          exact hl2
  · simp only [save_checkpoint, hpl]
    rw [hs1]; exact h

lemma runCkpt_len (cfg : Config) (hM : 1 ≤ cfg.max_history) :
    ∀ (calls : List (Option FaultOp × Nat × Option ℚ)) (s : SaverState),
      s.checkpoint_files.length ≤ cfg.max_history →
      (runCkpt cfg calls s).checkpoint_files.length ≤ cfg.max_history
  | [], _, h => h
  | c :: rest, s, h =>
    runCkpt_len cfg hM rest ((save_checkpoint cfg c.1 c.2.1 c.2.2 s).2)
      (save_checkpoint_len cfg c.1 c.2.1 c.2.2 s hM h)

/-! Step lemmas: the sort-order invariant. -/

lemma pySorted_err_shape (cfg : Config) (l : List Entry) (er : PyErr)
    (h : pySortedEntries cfg l = .error er) :
    2 ≤ l.length ∧ ∃ x ∈ l, x.2 = none := by
  unfold pySortedEntries at h
  split at h
  · rename_i hcond
    exact hcond
  · exact absurd h (by simp)

lemma promote_core_pairwise (cfg : Config) (fault : Option FaultOp) (e : Nat) (m : Option ℚ)
    (s1 : SaverState) (hp : List.Pairwise (presPref cfg) s1.checkpoint_files)
    (hmo : MetricsOk s1.checkpoint_files) :
    List.Pairwise (presPref cfg) (promote_core cfg fault e m s1).2.checkpoint_files := by
  simp only [promote_core]
  split_ifs with h2 h3
  · exact hp
  · exact hp
  · rcases hs : pySortedEntries cfg (s1.checkpoint_files ++ [(rankedPath cfg e, m)]) with er | l
    · show List.Pairwise (presPref cfg) (s1.checkpoint_files ++ [(rankedPath cfg e, m)])
      obtain ⟨-, x0, hx0mem, hx0⟩ := pySorted_err_shape cfg _ er hs
      rw [List.pairwise_append]
      refine ⟨hp, List.pairwise_singleton _ _, ?_⟩
      intro a ha b hb
      have hb' : b = (rankedPath cfg e, m) := by simpa using hb
      subst hb'
      intro x y hax hby
      exfalso
      rcases List.mem_append.mp hx0mem with hin | hone
      · rcases hmo with hall | ⟨p, hform⟩
        · exact hall x0 hin hx0
        · rw [hform] at hin
          have : x0 = (p, none) := by simpa using hin
          rw [hform] at ha
          have ha' : a = (p, none) := by simpa using ha
          rw [ha'] at hax
          exact Option.noConfusion hax
      · have : x0 = (rankedPath cfg e, m) := by simpa using hone
        rw [this] at hx0
        simp only at hx0
        rw [hx0] at hby
        exact Option.noConfusion hby
    · rw [(best_step_files cfg fault e m _).1]
      show List.Pairwise (presPref cfg) l
      rw [(pySorted_ok_shape cfg _ l hs).1]
      exact pairwise_presPref_of_sorted cfg _ (sorted_insertionSort_entryLE cfg _)

lemma promote_step_pairwise (cfg : Config) (fault : Option FaultOp) (e : Nat) (m : Option ℚ)
    (s : SaverState) (hp : List.Pairwise (presPref cfg) s.checkpoint_files)
    (hmo : MetricsOk s.checkpoint_files) :
    List.Pairwise (presPref cfg) (promote_step cfg fault e m s).2.checkpoint_files := by
  unfold promote_step
  split_ifs with hcap
  · obtain ⟨k, hk⟩ := cleanup_files_take cfg 1 s
    refine promote_core_pairwise cfg fault e m _ ?_ ?_
    · rw [hk]; exact pairwise_take _ _ hp
    · rw [hk]; exact MetricsOk_take _ _ hmo
  · exact promote_core_pairwise cfg fault e m s hp hmo

lemma save_checkpoint_pairwise (cfg : Config) (fault : Option FaultOp) (e : Nat)
    (m : Option ℚ) (s : SaverState) (hp : List.Pairwise (presPref cfg) s.checkpoint_files)
    (hmo : MetricsOk s.checkpoint_files) :
    List.Pairwise (presPref cfg) (save_checkpoint cfg fault e m s).2.checkpoint_files := by
  rcases hpl : place_last cfg fault s with ⟨o, s1⟩
  have hs1 : s1.checkpoint_files = s.checkpoint_files := by
    have := (place_last_state cfg fault s).1
    rw [hpl] at this
    exact this
  rcases o with - | er
  · simp only [save_checkpoint, hpl]
    rcases hpd : promotion_decision cfg m s1.checkpoint_files with er2 | b
    · simp only [hpd]
      rw [hs1]; exact hp
    · simp only [hpd]
      rcases b with - | -
      · simp only [if_neg (Bool.false_ne_true)]
        rw [(save_self_fields cfg s1).1, hs1]
        exact hp
      · simp only [if_pos rfl]
        rcases hps : promote_step cfg fault e m s1 with ⟨o2, s2⟩
        have hl2 : List.Pairwise (presPref cfg) s2.checkpoint_files := by
          have := promote_step_pairwise cfg fault e m s1 (by rw [hs1]; exact hp)
            (by rw [hs1]; exact hmo)
          rw [hps] at this
          exact this
        rcases o2 with - | er3
        · show List.Pairwise (presPref cfg) (save_self_state cfg s2).checkpoint_files
          rw [(save_self_fields cfg s2).1]
          exact hl2
        · exact hl2
  · simp only [save_checkpoint, hpl]
    rw [hs1]; exact hp

/-! Step lemmas: the success path of a fault-free save_checkpoint call. -/

lemma bestBeats_false {d : Bool} {x : ℚ} {o : Option ℚ} (h : bestBeats d x o = false) :
    ∃ b, o = some b ∧ cmpB d x b = false := by
  cases o
  · exact Bool.noConfusion h
  · exact ⟨_, rfl, h⟩

lemma MetricsOk_of_sort_ok (cfg : Config) (l1 : List Entry) (sp : String) (m : Option ℚ)
    (l : List Entry) (hs : pySortedEntries cfg (l1 ++ [(sp, m)]) = .ok l) :
    MetricsOk l := by
  obtain ⟨hins, hperm, hcase⟩ := pySorted_ok_shape cfg _ l hs
  rcases hcase with hlen | hall
  · have hl1 : l1 = [] := by
      rcases l1 with - | ⟨a, t⟩
      · rfl
      · simp at hlen
    subst hl1
    have hval : l = [(sp, m)] := by rw [hins]; rfl
    rw [hval]
    cases m with
    | none => exact Or.inr ⟨sp, rfl⟩
    | some x =>
      refine Or.inl ?_
      intro en hen
      have hform : en = (sp, some x) := by simpa using hen
      rw [hform]
      simp
  · exact Or.inl fun en hen => hall en (hperm.subset hen)

lemma promote_core_ok (cfg : Config) (e : Nat) (m : Option ℚ) (s1 : SaverState)
    (hM : 1 ≤ cfg.max_history)
    (hlen : s1.checkpoint_files.length + 1 ≤ cfg.max_history)
    (hp : List.Pairwise (presPref cfg) s1.checkpoint_files)
    (hmo : MetricsOk s1.checkpoint_files)
    (hbd : BestDom cfg s1)
    (hok : (promote_core cfg none e m s1).1 = none) :
    SInv cfg (promote_core cfg none e m s1).2 ∧
    (promote_core cfg none e m s1).2.best_metric = betterFold cfg.decreasing s1.best_metric m ∧
    (∀ x, m = some x → bestBeats cfg.decreasing x s1.best_metric = true →
      (promote_core cfg none e m s1).2.best_epoch = some e ∧
      (promote_core cfg none e m s1).2.best_metric = some x ∧
      bestPath cfg ∈ (promote_core cfg none e m s1).2.disk) ∧
    (∀ x, m = some x → bestBeats cfg.decreasing x s1.best_metric = false →
      (promote_core cfg none e m s1).2.best_epoch = s1.best_epoch ∧
      (promote_core cfg none e m s1).2.best_metric = s1.best_metric) ∧
    (m = none →
      (promote_core cfg none e m s1).2.best_epoch = s1.best_epoch ∧
      (promote_core cfg none e m s1).2.best_metric = s1.best_metric) := by
  simp only [promote_core] at hok ⊢
  by_cases h2 : rankedPath cfg e ∈ s1.disk
  · rw [if_pos h2] at hok
    exact absurd hok (by simp)
  · rw [if_neg h2] at hok ⊢
    rw [if_neg (show ¬ (none : Option FaultOp) = some FaultOp.rankedLink by simp)] at hok ⊢
    rcases hs : pySortedEntries cfg (s1.checkpoint_files ++ [(rankedPath cfg e, m)])
      with er | l
    · rw [hs] at hok
      exact absurd hok (by simp)
    · simp only [hs] at hok ⊢
      obtain ⟨hins, hperm, -⟩ := pySorted_ok_shape cfg _ l hs
      have hlength : l.length ≤ cfg.max_history := by
        have := hperm.length_eq
        simp only [List.length_append, List.length_singleton] at this
        omega
      have hsorted : List.Pairwise (presPref cfg) l := by
        rw [hins]
        exact pairwise_presPref_of_sorted cfg _ (sorted_insertionSort_entryLE cfg _)
      have hmet : MetricsOk l := MetricsOk_of_sort_ok cfg _ _ _ l hs
      cases m with
      | none =>
        rw [best_step_none_metric]
        refine ⟨⟨hlength, hsorted, hmet, ?_⟩, rfl, ?_, ?_, fun _ => ⟨rfl, rfl⟩⟩
        · intro en hen x hx
          have hmem : en ∈ s1.checkpoint_files ++ [(rankedPath cfg e, none)] :=
            hperm.subset hen
          rcases List.mem_append.mp hmem with hin | hone
          · exact hbd en hin x hx
          · have : en = (rankedPath cfg e, none) := by simpa using hone
            rw [this] at hx
            exact Option.noConfusion hx
        · intro x hx; exact Option.noConfusion hx
        · intro x hx; exact Option.noConfusion hx
      | some x =>
        obtain ⟨hfst, htrue, hfalse⟩ := best_step_some cfg e x
          { s1 with
            disk := diskAdd (rankedPath cfg e) s1.disk,
            checkpoint_files := l }
        have hfiles := (best_step_files cfg none e (some x)
          { s1 with
            disk := diskAdd (rankedPath cfg e) s1.disk,
            checkpoint_files := l }).1
        rcases Bool.eq_false_or_eq_true (bestBeats cfg.decreasing x s1.best_metric)
          with hb | hb
        · obtain ⟨he', hm', hd'⟩ := htrue hb
          refine ⟨⟨?_, ?_, ?_, ?_⟩, ?_, ?_, ?_, ?_⟩
          · rw [hfiles]; exact hlength
          · rw [hfiles]; exact hsorted
          · rw [hfiles]; exact hmet
          · intro en hen z hz
            rw [hfiles] at hen
            refine ⟨x, hm', ?_⟩
            have hmem : en ∈ s1.checkpoint_files ++ [(rankedPath cfg e, some x)] :=
              hperm.subset hen
            rcases List.mem_append.mp hmem with hin | hone
            · obtain ⟨b0, hb0, hzb0⟩ := hbd en hin z hz
              have hxb0 : cmpB cfg.decreasing x b0 = true := by
                rw [hb0] at hb
                simpa [bestBeats] using hb
              exact cmpB_dom_mono hzb0 hxb0
            · have : en = (rankedPath cfg e, some x) := by simpa using hone
              rw [this] at hz
              have hxz : x = z := by simpa using hz
              rw [← hxz]
              exact cmpB_irrefl _ _
          · rw [hm']
            simp [betterFold, hb]
          · intro z hz hbz
            have hzx : x = z := by simpa using hz
            subst hzx
            exact ⟨he', hm', hd'⟩
          · intro z hz hbz
            have hzx : x = z := by simpa using hz
            subst hzx
            rw [hbz] at hb
            exact Bool.noConfusion hb
          · intro hcon
            exact Option.noConfusion hcon
        · have hres := hfalse hb
          rw [hres]
          obtain ⟨b0, hb0, hxb0⟩ := bestBeats_false hb
          refine ⟨⟨hlength, hsorted, hmet, ?_⟩, ?_, ?_, ?_, ?_⟩
          · intro en hen z hz
            refine ⟨b0, hb0, ?_⟩
            have hmem : en ∈ s1.checkpoint_files ++ [(rankedPath cfg e, some x)] :=
              hperm.subset hen
            rcases List.mem_append.mp hmem with hin | hone
            · obtain ⟨b1, hb1, hzb1⟩ := hbd en hin z hz
              rw [hb1] at hb0
              have : b1 = b0 := by simpa using hb0
              rw [← this]
              exact hzb1
            · have : en = (rankedPath cfg e, some x) := by simpa using hone
              rw [this] at hz
              have hxz : x = z := by simpa using hz
              rw [← hxz]
              exact hxb0
          · simp [betterFold, hb]
          · intro z hz hbz
            have hzx : x = z := by simpa using hz
            subst hzx
            rw [hbz] at hb
            exact Bool.noConfusion hb
          · intro z hz hbz
            exact ⟨rfl, rfl⟩
          · intro hcon
            exact Option.noConfusion hcon

lemma SInv_of_fields {cfg : Config} {s t : SaverState}
    (hf : t.checkpoint_files = s.checkpoint_files) (hb : t.best_metric = s.best_metric)
    (h : SInv cfg s) : SInv cfg t := by
  obtain ⟨h1, h2, h3, h4⟩ := h
  refine ⟨by rw [hf]; exact h1, by rw [hf]; exact h2, by rw [hf]; exact h3, ?_⟩
  intro en hen z hz
  rw [hf] at hen
  obtain ⟨b, hbb, hzb⟩ := h4 en hen z hz
  exact ⟨b, by rw [hb, hbb], hzb⟩

lemma promotion_decision_false (cfg : Config) (m : Option ℚ) (files : List Entry)
    (h : promotion_decision cfg m files = .ok false) :
    ∃ x w wm, m = some x ∧ files.getLast? = some w ∧ w.2 = some wm ∧
      cmpB cfg.decreasing x wm = false := by
  unfold promotion_decision at h
  split at h
  · exact absurd h (by simp)
  · cases m with
    | none => exact absurd h (by simp)
    | some x =>
      rcases hw : files.getLast? with - | w
      · rw [hw] at h
        exact absurd h (by simp)
      · simp only [hw] at h
        rcases hw2 : w.2 with - | wm
        · simp only [hw2] at h
          exact absurd h (by simp)
        · simp only [hw2] at h
          injection h with h2
          exact ⟨x, w, wm, rfl, rfl, hw2, h2⟩

lemma promote_step_ok (cfg : Config) (e : Nat) (m : Option ℚ) (s1 : SaverState)
    (hM : 1 ≤ cfg.max_history) (hInv : SInv cfg s1)
    (hok : (promote_step cfg none e m s1).1 = none) :
    SInv cfg (promote_step cfg none e m s1).2 ∧
    (promote_step cfg none e m s1).2.best_metric =
      betterFold cfg.decreasing s1.best_metric m ∧
    (∀ x, m = some x → bestBeats cfg.decreasing x s1.best_metric = true →
      (promote_step cfg none e m s1).2.best_epoch = some e ∧
      (promote_step cfg none e m s1).2.best_metric = some x ∧
      bestPath cfg ∈ (promote_step cfg none e m s1).2.disk) ∧
    (∀ x, m = some x → bestBeats cfg.decreasing x s1.best_metric = false →
      (promote_step cfg none e m s1).2.best_epoch = s1.best_epoch ∧
      (promote_step cfg none e m s1).2.best_metric = s1.best_metric) ∧
    (m = none →
      (promote_step cfg none e m s1).2.best_epoch = s1.best_epoch ∧
      (promote_step cfg none e m s1).2.best_metric = s1.best_metric) := by
  obtain ⟨hlen, hpair, hmo, hbd⟩ := hInv
  unfold promote_step at hok ⊢
  by_cases hcap : cfg.max_history ≤ s1.checkpoint_files.length
  · rw [if_pos hcap] at hok ⊢
    have hlen1 : s1.checkpoint_files.length = cfg.max_history := le_antisymm hlen hcap
    obtain ⟨hto, hclen⟩ := cleanup_one_at_capacity cfg s1 hM hlen1
    have hbe := (cleanup_state cfg 1 s1).1
    have hbm := (cleanup_state cfg 1 s1).2.1
    have hcore := promote_core_ok cfg e m (cleanup_checkpoints cfg 1 s1) hM
      (by rw [hclen]; omega)
      (by rw [hto]; exact pairwise_take _ _ hpair)
      (by rw [hto]; exact MetricsOk_take _ _ hmo)
      (by
        intro en hen z hz
        rw [hto] at hen
        obtain ⟨b, hb, hzb⟩ := hbd en (List.mem_of_mem_take hen) z hz
        exact ⟨b, by rw [hbm, hb], hzb⟩)
      hok
    rw [hbm, hbe] at hcore
    exact hcore
  · rw [if_neg hcap] at hok ⊢
    exact promote_core_ok cfg e m s1 hM (by omega) hpair hmo hbd hok

lemma save_checkpoint_ok_step (cfg : Config) (e : Nat) (m : Option ℚ) (s : SaverState)
    (hM : 1 ≤ cfg.max_history) (hInv : SInv cfg s)
    (hok : isOkRes (save_checkpoint cfg none e m s).1 = true) :
    SInv cfg (save_checkpoint cfg none e m s).2 ∧
    (save_checkpoint cfg none e m s).2.best_metric =
      betterFold cfg.decreasing s.best_metric m ∧
    (∀ x, m = some x → bestBeats cfg.decreasing x s.best_metric = true →
      (save_checkpoint cfg none e m s).2.best_epoch = some e ∧
      (save_checkpoint cfg none e m s).2.best_metric = some x ∧
      bestPath cfg ∈ (save_checkpoint cfg none e m s).2.disk) ∧
    (∀ x, m = some x → bestBeats cfg.decreasing x s.best_metric = false →
      (save_checkpoint cfg none e m s).2.best_epoch = s.best_epoch ∧
      (save_checkpoint cfg none e m s).2.best_metric = s.best_metric) ∧
    (m = none →
      (save_checkpoint cfg none e m s).2.best_epoch = s.best_epoch ∧
      (save_checkpoint cfg none e m s).2.best_metric = s.best_metric) ∧
    (save_checkpoint cfg none e m s).2.persisted =
      some (recordOf (save_checkpoint cfg none e m s).2) := by
  obtain ⟨s1, hpl⟩ : ∃ s1, place_last cfg none s = (none, s1) := by
    rcases hq : place_last cfg none s with ⟨o, s0⟩
    have ho : o = none := by rw [← place_last_none_fst cfg s, hq]
    exact ⟨s0, by rw [ho]⟩
  have hplf : s1.checkpoint_files = s.checkpoint_files := by
    have h0 := (place_last_state cfg none s).1
    rw [hpl] at h0
    exact h0
  have hple : s1.best_epoch = s.best_epoch := by
    have h0 := (place_last_state cfg none s).2.1
    rw [hpl] at h0
    exact h0
  have hplm : s1.best_metric = s.best_metric := by
    have h0 := (place_last_state cfg none s).2.2.1
    rw [hpl] at h0
    exact h0
  have hInv1 : SInv cfg s1 := SInv_of_fields hplf hplm hInv
  simp only [save_checkpoint, hpl] at hok ⊢
  rcases hpd : promotion_decision cfg m s1.checkpoint_files with er | b
  · rw [hpd] at hok
    simp [isOkRes] at hok
  · simp only [hpd] at hok ⊢
    rcases b with - | -
    · -- not promoted: the call only re-persists the state
      simp only [Bool.false_eq_true, if_false, ite_false] at hok ⊢
      obtain ⟨x, w, wm, hx, hw, hwm, hcmp⟩ :=
        promotion_decision_false cfg m _ hpd
      subst hx
      have hwmem : w ∈ s.checkpoint_files := by
        rw [← hplf]
        exact List.mem_of_getLast?_eq_some hw
      obtain ⟨b0, hb0, hwb0⟩ := hInv.2.2.2 w hwmem wm hwm
      have hxb0 : cmpB cfg.decreasing x b0 = false := cmpB_notbeat_trans hcmp hwb0
      have hbb : bestBeats cfg.decreasing x s.best_metric = false := by
        rw [hb0]
        simpa [bestBeats] using hxb0
      obtain ⟨hsf, hse, hsm, -, -, hsp⟩ := save_self_fields cfg s1
      refine ⟨?_, ?_, ?_, ?_, ?_, ?_⟩
      · exact SInv_of_fields (by rw [hsf, hplf]) (by rw [hsm, hplm]) hInv
      · rw [hsm, hplm]
        simp [betterFold, hbb]
      · intro z hz hbz
        have hxz : x = z := by simpa using hz
        subst hxz
        rw [hbz] at hbb
        exact Bool.noConfusion hbb
      · intro z hz hbz
        have hxz : x = z := by simpa using hz
        subst hxz
        exact ⟨by rw [hse, hple], by rw [hsm, hplm]⟩
      · intro hcon
        exact Option.noConfusion hcon
      · rw [hsp, recordOf_save_self]
    · -- promoted
      rw [if_pos (by trivial)] at hok ⊢
      rcases hps : promote_step cfg none e m s1 with ⟨o2, s2⟩
      rw [hps] at hok
      rcases o2 with - | er3
      · dsimp only at hok ⊢
        have hok2 : (promote_step cfg none e m s1).1 = none := by
          rw [hps]
        have hcore := promote_step_ok cfg e m s1 hM hInv1 hok2
        rw [hps] at hcore
        obtain ⟨hc1, hc2, hc3, hc4, hc5⟩ := hcore
        obtain ⟨hsf, hse, hsm, -, -, hsp⟩ := save_self_fields cfg s2
        refine ⟨?_, ?_, ?_, ?_, ?_, ?_⟩
        · exact SInv_of_fields hsf hsm hc1
        · rw [hsm, hc2, hplm]
        · intro z hz hbz
          obtain ⟨ha, hb2, hd2⟩ := hc3 z hz (by rw [hplm]; exact hbz)
          exact ⟨by rw [hse, ha], by rw [hsm, hb2], save_self_disk_mono cfg s2 hd2⟩
        · intro z hz hbz
          obtain ⟨ha, hb2⟩ := hc4 z hz (by rw [hplm]; exact hbz)
          exact ⟨by rw [hse, ha, hple], by rw [hsm, hb2, hplm]⟩
        · intro hz
          obtain ⟨ha, hb2⟩ := hc5 hz
          exact ⟨by rw [hse, ha, hple], by rw [hsm, hb2, hplm]⟩
        · rw [hsp, recordOf_save_self]
      · simp [isOkRes] at hok

/-! Trace lemmas. -/

lemma okTrace_cons (cfg : Config) (c : Nat × Option ℚ) (rest : List (Nat × Option ℚ))
    (s : SaverState) (h : okTrace cfg (c :: rest) s = true) :
    isOkRes (save_checkpoint cfg none c.1 c.2 s).1 = true ∧
    okTrace cfg rest (save_checkpoint cfg none c.1 c.2 s).2 = true := by
  simpa [okTrace, Bool.and_eq_true] using h

lemma SInv_init (cfg : Config) : SInv cfg initState := by
  refine ⟨by simp [initState], by simp [initState], Or.inl ?_, ?_⟩
  · intro e he
    simp [initState] at he
  · intro e he
    simp [initState] at he

lemma runOk_best (cfg : Config) (hM : 1 ≤ cfg.max_history) :
    ∀ (calls : List (Nat × Option ℚ)) (s : SaverState),
      SInv cfg s → okTrace cfg calls s = true →
      SInv cfg (runOk cfg calls s) ∧
      (runOk cfg calls s).best_metric =
        (presentMetrics calls).foldl
          (fun acc x => betterFold cfg.decreasing acc (some x)) s.best_metric
  | [], s, hInv, _ => ⟨hInv, rfl⟩
  | c :: rest, s, hInv, hok => by
    obtain ⟨h1, h2⟩ := okTrace_cons cfg c rest s hok
    obtain ⟨hInv2, hbest, -, -, -, -⟩ := save_checkpoint_ok_step cfg c.1 c.2 s hM hInv h1
    obtain ⟨hInvR, hbestR⟩ := runOk_best cfg hM rest _ hInv2 h2
    refine ⟨hInvR, ?_⟩
    show (runOk cfg rest (save_checkpoint cfg none c.1 c.2 s).2).best_metric = _
    rw [hbestR, hbest]
    cases hc : c.2 with
    | none => simp [presentMetrics, List.filterMap_cons, hc, betterFold]
    | some x => simp [presentMetrics, List.filterMap_cons, hc]

lemma runOk_inv (cfg : Config) (hM : 1 ≤ cfg.max_history) (calls : List (Nat × Option ℚ))
    (s : SaverState) (hInv : SInv cfg s) (hok : okTrace cfg calls s = true) :
    SInv cfg (runOk cfg calls s) :=
  (runOk_best cfg hM calls s hInv hok).1

/-! Recovery rotation lemmas. -/

lemma recoveryPath_ne_empty (cfg : Config) (e b : Nat) : recoveryPath cfg e b ≠ "" := by
  have hdash : ("-" : String).length = 1 := rfl
  unfold recoveryPath joinPath
  split <;>
    intro h <;>
    have h2 := congrArg String.length h <;>
    simp [String.length_append, hdash] at h2

/-- Unfolding of save_recovery as a single record update. -/
lemma save_recovery_eq (cfg : Config) (e b : Nat) (s : SaverState) :
    save_recovery cfg e b s =
      { s with
        disk := if s.last_recovery_file ∈ diskAdd (recoveryPath cfg e b) s.disk
                then diskRemove s.last_recovery_file (diskAdd (recoveryPath cfg e b) s.disk)
                else diskAdd (recoveryPath cfg e b) s.disk,
        last_recovery_file := s.curr_recovery_file,
        curr_recovery_file := recoveryPath cfg e b } := by
  simp only [save_recovery]
  split <;> rfl

/-- The invariant of recovery rotation relative to the set of recovery paths
used so far. -/
def RInv (s : SaverState) (used : List String) : Prop :=
  (∀ f ∈ s.disk, f = s.curr_recovery_file ∨ f = s.last_recovery_file) ∧
  (s.curr_recovery_file ≠ "" →
    s.curr_recovery_file ∈ s.disk ∧ s.curr_recovery_file ∈ used) ∧
  (s.last_recovery_file ≠ "" →
    s.last_recovery_file ∈ s.disk ∧ s.last_recovery_file ∈ used) ∧
  (s.curr_recovery_file ≠ "" → s.last_recovery_file ≠ "" →
    s.curr_recovery_file ≠ s.last_recovery_file) ∧
  (∀ f ∈ s.disk, f ∈ used ∧ f ≠ "") ∧
  s.disk.Nodup

lemma save_recovery_rinv (cfg : Config) (e b : Nat) (s : SaverState) (used : List String)
    (hInv : RInv s used) (hfresh : recoveryPath cfg e b ∉ used) :
    RInv (save_recovery cfg e b s) (recoveryPath cfg e b :: used) := by
  obtain ⟨h1, h2, h3, h4, h5, h6⟩ := hInv
  have hne : recoveryPath cfg e b ≠ "" := recoveryPath_ne_empty cfg e b
  have hpd : recoveryPath cfg e b ∉ s.disk := fun hmem => hfresh (h5 _ hmem).1
  have hadd : diskAdd (recoveryPath cfg e b) s.disk = recoveryPath cfg e b :: s.disk := by
    unfold diskAdd
    rw [if_neg hpd]
  rw [save_recovery_eq, hadd]
  by_cases hl : s.last_recovery_file ∈ (recoveryPath cfg e b :: s.disk)
  · rw [if_pos hl]
    have hlast_in : s.last_recovery_file ∈ s.disk := by
      rcases List.mem_cons.mp hl with hh | hh
      · exfalso
        rcases eq_or_ne s.last_recovery_file "" with he | he
        · rw [he] at hh
          exact hne hh.symm
        · exact hfresh (hh ▸ (h3 he).2)
      · exact hh
    have hlast_ne : s.last_recovery_file ≠ "" := (h5 _ hlast_in).2
    have hlast_ne_p : s.last_recovery_file ≠ recoveryPath cfg e b := by
      intro hh
      exact hfresh (hh ▸ (h3 hlast_ne).2)
    unfold RInv
    dsimp only
    refine ⟨?_, ?_, ?_, ?_, ?_, ?_⟩
    · intro f hf
      rw [mem_diskRemove] at hf
      obtain ⟨hf1, hf2⟩ := hf
      rcases List.mem_cons.mp hf1 with hh | hh
      · exact Or.inl hh
      · rcases h1 f hh with hc | hc
        · exact Or.inr hc
        · exact absurd hc hf2
    · intro _
      constructor
      · rw [mem_diskRemove]
        exact ⟨List.mem_cons_self _ _, fun hh => hlast_ne_p hh.symm⟩
      · exact List.mem_cons_self _ _
    · intro hc
      refine ⟨?_, List.mem_cons_of_mem _ (h2 hc).2⟩
      rw [mem_diskRemove]
      exact ⟨List.mem_cons_of_mem _ (h2 hc).1, h4 hc hlast_ne⟩
    · intro _ hc hh
      exact hfresh (hh ▸ (h2 hc).2)
    · intro f hf
      rw [mem_diskRemove] at hf
      rcases List.mem_cons.mp hf.1 with hh | hh
      · subst hh
        exact ⟨List.mem_cons_self _ _, hne⟩
      · exact ⟨List.mem_cons_of_mem _ (h5 f hh).1, (h5 f hh).2⟩
    · exact nodup_diskRemove _ (List.Nodup.cons hpd h6)
  · rw [if_neg hl]
    have hlast_nin : s.last_recovery_file ∉ s.disk := fun hh =>
      hl (List.mem_cons_of_mem _ hh)
    unfold RInv
    dsimp only
    refine ⟨?_, ?_, ?_, ?_, ?_, ?_⟩
    · intro f hf
      rcases List.mem_cons.mp hf with hh | hh
      · exact Or.inl hh
      · rcases h1 f hh with hc | hc
        · exact Or.inr hc
        · exact absurd (hc ▸ hh) hlast_nin
    · intro _
      exact ⟨List.mem_cons_self _ _, List.mem_cons_self _ _⟩
    · intro hc
      exact ⟨List.mem_cons_of_mem _ (h2 hc).1, List.mem_cons_of_mem _ (h2 hc).2⟩
    · intro _ hc hh
      exact hfresh (hh ▸ (h2 hc).2)
    · intro f hf
      rcases List.mem_cons.mp hf with hh | hh
      · subst hh
        exact ⟨List.mem_cons_self _ _, hne⟩
      · exact ⟨List.mem_cons_of_mem _ (h5 f hh).1, (h5 f hh).2⟩
    · exact List.Nodup.cons hpd h6

lemma runRec_rinv (cfg : Config) (calls : List (Nat × Nat)) :
    ∀ (s : SaverState) (used : List String),
      RInv s used →
      (∀ c ∈ calls, recoveryPath cfg c.1 c.2 ∉ used) →
      (calls.map (fun c => recoveryPath cfg c.1 c.2)).Nodup →
      ∃ u2, RInv (runRec cfg calls s) u2 := by
  induction calls with
  | nil =>
    intro s used hInv _ _
    exact ⟨used, hInv⟩
  | cons c rest ih =>
    intro s used hInv hf hnd
    have hstep := save_recovery_rinv cfg c.1 c.2 s used hInv (hf c (by simp))
    have hnd2 := List.nodup_cons.mp hnd
    have hgoal : runRec cfg (c :: rest) s = runRec cfg rest (save_recovery cfg c.1 c.2 s) :=
      rfl
    rw [hgoal]
    refine ih _ _ hstep ?_ hnd2.2
    intro c2 hc2 hmem
    rcases List.mem_cons.mp hmem with h | h
    · refine hnd2.1 ?_
      have : recoveryPath cfg c.1 c.2 ∈
          List.map (fun c => recoveryPath cfg c.1 c.2) rest := by
        rw [← h]
        exact List.mem_map_of_mem _ hc2
      exact this
    · exact hf c2 (List.mem_cons_of_mem _ hc2) h

lemma length_le_two_of_mem {l : List String} {a b : String} (hnd : l.Nodup)
    (h : ∀ x ∈ l, x = a ∨ x = b) : l.length ≤ 2 := by
  rcases l with - | ⟨x, l1⟩
  · simp
  rcases l1 with - | ⟨y, l2⟩
  · simp
  rcases l2 with - | ⟨z, l3⟩
  · simp
  exfalso
  obtain ⟨hx1, hnd1⟩ := List.nodup_cons.mp hnd
  obtain ⟨hy1, -⟩ := List.nodup_cons.mp hnd1
  have hxy : x ≠ y := fun hh => hx1 (by simp [hh])
  have hxz : x ≠ z := fun hh => hx1 (by simp [hh])
  have hyz : y ≠ z := fun hh => hy1 (by simp [hh])
  rcases h x (by simp) with rfl | rfl <;>
    rcases h y (by simp) with hy | hy <;>
    rcases h z (by simp) with hz | hz <;>
    simp_all

/-! Helper lemmas for the failure and absent-metric paths. -/

lemma place_last_fault_fst (cfg : Config) (fault : Option FaultOp) (s : SaverState)
    (h : fault = some .serialize ∨
         (fault = some .unlinkLast ∧ lastPath cfg ∈ diskAdd (tmpPath cfg) s.disk) ∨
         fault = some .renameLast) :
    (place_last cfg fault s).1 = some .oserror := by
  rcases h with h | ⟨h, hmem⟩ | h <;> subst h
  · simp [place_last]
  · simp [place_last, hmem]
  · simp [place_last, apply_ite]

lemma save_checkpoint_ok_persisted (cfg : Config) (fault : Option FaultOp) (e : Nat)
    (m : Option ℚ) (s : SaverState)
    (hok : isOkRes (save_checkpoint cfg fault e m s).1 = true) :
    (save_checkpoint cfg fault e m s).2.persisted =
      some (recordOf (save_checkpoint cfg fault e m s).2) := by
  rcases hpl : place_last cfg fault s with ⟨o, s1⟩
  rcases o with - | er
  · simp only [save_checkpoint, hpl] at hok ⊢
    rcases hpd : promotion_decision cfg m s1.checkpoint_files with er2 | b
    · rw [hpd] at hok
      simp [isOkRes] at hok
    · simp only [hpd] at hok ⊢
      rcases b with - | -
      · simp only [Bool.false_eq_true, if_false, ite_false] at hok ⊢
        rw [(save_self_fields cfg s1).2.2.2.2.2, recordOf_save_self]
      · rw [if_pos (by trivial)] at hok ⊢
        rcases hps : promote_step cfg fault e m s1 with ⟨o2, s2⟩
        rw [hps] at hok
        rcases o2 with - | er3
        · show (save_self_state cfg s2).persisted = some (recordOf (save_self_state cfg s2))
          rw [(save_self_fields cfg s2).2.2.2.2.2, recordOf_save_self]
        · simp [isOkRes] at hok
  · simp only [save_checkpoint, hpl] at hok
    simp [isOkRes] at hok

lemma promote_step_empty (cfg : Config) (e : Nat) (m : Option ℚ) (s1 : SaverState)
    (hM : 1 ≤ cfg.max_history) (hemp : s1.checkpoint_files = [])
    (hnd : rankedPath cfg e ∉ s1.disk) :
    promote_step cfg none e m s1 =
      best_step cfg none e m
        { s1 with
          disk := diskAdd (rankedPath cfg e) s1.disk,
          checkpoint_files := [(rankedPath cfg e, m)] } := by
  unfold promote_step promote_core
  rw [hemp]
  have hcap : ¬ (cfg.max_history ≤ ([] : List Entry).length) := by
    simp only [List.length_nil]
    omega
  rw [if_neg hcap]
  rw [if_neg hnd, if_neg (show ¬ (none : Option FaultOp) = some FaultOp.rankedLink by simp)]
  have hsort : pySortedEntries cfg [(rankedPath cfg e, m)] = .ok [(rankedPath cfg e, m)] := by
    unfold pySortedEntries
    rw [if_neg (by simp)]
    rfl
  simp only [hemp, List.nil_append, hsort]

lemma promote_step_mix_err (cfg : Config) (e : Nat) (s1 : SaverState)
    (hne : s1.checkpoint_files ≠ [])
    (hlt : s1.checkpoint_files.length < cfg.max_history)
    (hnd : rankedPath cfg e ∉ s1.disk) :
    promote_step cfg none e none s1 =
      (some .typeError,
        { s1 with
          disk := diskAdd (rankedPath cfg e) s1.disk,
          checkpoint_files := s1.checkpoint_files ++ [(rankedPath cfg e, none)] }) := by
  unfold promote_step promote_core
  have hcap : ¬ (cfg.max_history ≤ s1.checkpoint_files.length) := by omega
  rw [if_neg hcap]
  rw [if_neg hnd, if_neg (show ¬ (none : Option FaultOp) = some FaultOp.rankedLink by simp)]
  have hlp : 1 ≤ s1.checkpoint_files.length := List.length_pos.mpr hne
  have hsort : pySortedEntries cfg (s1.checkpoint_files ++ [(rankedPath cfg e, none)]) =
      .error .typeError := by
    refine pySorted_err cfg _ ?_ (rankedPath cfg e, none) (by simp) rfl
    simp only [List.length_append, List.length_singleton]
    omega
  simp only [hsort]

lemma save_checkpoint_none_empty (cfg : Config) (e : Nat) (s : SaverState)
    (hM : 1 ≤ cfg.max_history) (hemp : s.checkpoint_files = [])
    (hnd : rankedPath cfg e ∉ (place_last cfg none s).2.disk) :
    isOkRes (save_checkpoint cfg none e none s).1 = true ∧
    (save_checkpoint cfg none e none s).2.checkpoint_files = [(rankedPath cfg e, none)] := by
  obtain ⟨s1, hpl⟩ : ∃ s1, place_last cfg none s = (none, s1) := by
    rcases hq : place_last cfg none s with ⟨o, s0⟩
    have ho : o = none := by rw [← place_last_none_fst cfg s, hq]
    exact ⟨s0, by rw [ho]⟩
  have hplf : s1.checkpoint_files = s.checkpoint_files := by
    have h0 := (place_last_state cfg none s).1
    rw [hpl] at h0
    exact h0
  have hemp1 : s1.checkpoint_files = [] := by rw [hplf, hemp]
  have hnd1 : rankedPath cfg e ∉ s1.disk := by
    rw [hpl] at hnd
    exact hnd
  simp only [save_checkpoint, hpl]
  have hpd : promotion_decision cfg none s1.checkpoint_files = .ok true := by
    unfold promotion_decision
    rw [hemp1]
    rw [if_pos (by simp only [List.length_nil]; omega)]
  simp only [hpd]
  rw [if_pos (by trivial)]
  rw [promote_step_empty cfg e none s1 hM hemp1 hnd1, best_step_none_metric]
  exact ⟨rfl, rfl⟩

lemma save_checkpoint_none_nonempty (cfg : Config) (e : Nat) (s : SaverState)
    (hne : s.checkpoint_files ≠ [])
    (hlt : s.checkpoint_files.length < cfg.max_history)
    (hnd : rankedPath cfg e ∉ (place_last cfg none s).2.disk) :
    (save_checkpoint cfg none e none s).1 = .error .typeError := by
  obtain ⟨s1, hpl⟩ : ∃ s1, place_last cfg none s = (none, s1) := by
    rcases hq : place_last cfg none s with ⟨o, s0⟩
    have ho : o = none := by rw [← place_last_none_fst cfg s, hq]
    exact ⟨s0, by rw [ho]⟩
  have hplf : s1.checkpoint_files = s.checkpoint_files := by
    have h0 := (place_last_state cfg none s).1
    rw [hpl] at h0
    exact h0
  have hne1 : s1.checkpoint_files ≠ [] := by rw [hplf]; exact hne
  have hlt1 : s1.checkpoint_files.length < cfg.max_history := by rw [hplf]; exact hlt
  have hnd1 : rankedPath cfg e ∉ s1.disk := by
    rw [hpl] at hnd
    exact hnd
  simp only [save_checkpoint, hpl]
  have hpd : promotion_decision cfg none s1.checkpoint_files = .ok true := by
    unfold promotion_decision
    rw [if_pos hlt1]
  simp only [hpd]
  rw [if_pos (by trivial)]
  rw [promote_step_mix_err cfg e s1 hne1 hlt1 hnd1]

/-! Claim theorems. -/

/-- C1: for every configuration with max_history at least 1 and every
sequence of SaveCheckpoint calls — including calls that raise or have an
injected filesystem fault — the in-memory ranked history has length at most
max_history after every call; and capacity is enforced by evicting before
inserting: the eviction call of line 124 brings a history at capacity down
to max_history - 1 entries, so the subsequent append can never push the
length past max_history. -/
theorem C1_bounded_history (cfg : Config) (hM : 1 ≤ cfg.max_history)
    (calls : List (Option FaultOp × Nat × Option ℚ)) :
    (runCkpt cfg calls initState).checkpoint_files.length ≤ cfg.max_history ∧
    ∀ s : SaverState, s.checkpoint_files.length = cfg.max_history →
      (cleanup_checkpoints cfg 1 s).checkpoint_files.length = cfg.max_history - 1 := by
  constructor
  · exact runCkpt_len cfg hM calls initState (by simp [initState])
  · intro s hs
    exact (cleanup_one_at_capacity cfg s hM hs).2

theorem C1_bounded_history_witness :
    (runCkpt (mkCfg false 2) [(none, 0, some 1), (none, 1, some 2), (none, 2, some 3)]
      initState).checkpoint_files.length ≤ 2 :=
  (C1_bounded_history (mkCfg false 2) (by decide)
    [(none, 0, some 1), (none, 1, some 2), (none, 2, some 3)]).1

/-- C2 counterexample: SaveRecovery does not end by persisting the engine
state.  After a single save_recovery call from the empty state the in-memory
current-recovery pointer is set, but no durable record has been written, so
the durable record does not equal the in-memory state produced by the
call. -/
theorem C2_counterexample :
    (save_recovery (mkCfg false 2) 0 0 initState).persisted = none ∧
    (save_recovery (mkCfg false 2) 0 0 initState).curr_recovery_file = "r-0-0.t" ∧
    (save_recovery (mkCfg false 2) 0 0 initState).persisted ≠
      some (recordOf (save_recovery (mkCfg false 2) 0 0 initState)) := by
  refine ⟨rfl, rfl, ?_⟩
  intro h
  exact Option.noConfusion h

/-- C2 amended: every save_checkpoint call that returns normally ends by
persisting the full bookkeeping record (best_epoch, best_metric, ranked
history, recovery pointers), so the durable record then equals the in-memory
state produced by the call; save_recovery, however, never writes the state
record — the durable record is unchanged by it. -/
theorem C2_persist_amended (cfg : Config) (fault : Option FaultOp) (e : Nat)
    (m : Option ℚ) (s : SaverState) (r : Option ℚ × Option Nat) (s2 : SaverState)
    (h : save_checkpoint cfg fault e m s = (.ok r, s2)) :
    s2.persisted = some (recordOf s2) ∧
    ∀ (e2 b : Nat) (s3 : SaverState),
      (save_recovery cfg e2 b s3).persisted = s3.persisted := by
  constructor
  · have hok : isOkRes (save_checkpoint cfg fault e m s).1 = true := by
      rw [h]
      rfl
    have hper := save_checkpoint_ok_persisted cfg fault e m s hok
    rw [h] at hper
    exact hper
  · intro e2 b s3
    rw [save_recovery_eq]

theorem C2_persist_amended_witness :
    (runOk (mkCfg false 2) [(0, some 1)] initState).persisted =
      some (recordOf (runOk (mkCfg false 2) [(0, some 1)] initState)) :=
  (C2_persist_amended (mkCfg false 2) none 0 (some 1) initState (some 1, some 0)
    (runOk (mkCfg false 2) [(0, some 1)] initState) (by rfl)).1

/-- C3 counterexample: the claim quantifies over every sequence of
SaveCheckpoint calls.  From the empty state (max_history = 2, increasing
metric), saving epoch 0 with an absent metric succeeds, and saving epoch 1
with metric 3 raises TypeError in the re-sort; after that sequence
best_metric is still unset although the non-absent metric 3 was passed, so
it does not equal the best metric passed so far. -/
theorem C3_counterexample :
    isOkRes (save_checkpoint (mkCfg false 2) none 0 none initState).1 = true ∧
    (save_checkpoint (mkCfg false 2) none 1 (some 3)
      (save_checkpoint (mkCfg false 2) none 0 none initState).2).1 =
      .error .typeError ∧
    (runCkpt (mkCfg false 2) [(none, 0, none), (none, 1, some 3)] initState).best_metric =
      none ∧
    bestOf false (presentMetrics [(0, none), (1, some 3)]) = some 3 ∧
    (runCkpt (mkCfg false 2) [(none, 0, none), (none, 1, some 3)] initState).best_metric ≠
      bestOf false (presentMetrics [(0, none), (1, some 3)]) := by
  refine ⟨by decide, by decide, by decide, by decide, by decide⟩

/-- C3 amended: for every sequence of fault-free SaveCheckpoint calls from
the empty state in which every call completes without raising, after the
sequence best_metric equals the single best metric (under the configured
decreasing/increasing sense) among all non-absent metrics passed, and is
unset if none was passed — independent of eviction, since quantification is
over arbitrary such sequences. -/
theorem C3_monotone_best_amended (cfg : Config) (hM : 1 ≤ cfg.max_history)
    (calls : List (Nat × Option ℚ)) (hok : okTrace cfg calls initState = true) :
    (runOk cfg calls initState).best_metric =
      bestOf cfg.decreasing (presentMetrics calls) :=
  (runOk_best cfg hM calls initState (SInv_init cfg) hok).2

theorem C3_monotone_best_amended_witness :
    (runOk (mkCfg false 2) [(0, some 1), (1, some 3), (2, some 2)] initState).best_metric =
      bestOf false (presentMetrics [(0, some 1), (1, some 3), (2, some 2)]) :=
  C3_monotone_best_amended (mkCfg false 2) (by decide)
    [(0, some 1), (1, some 3), (2, some 2)] (by decide)

/-- C4 counterexample: with max_history = 1 from the empty state, saving
epoch 0 with an absent metric succeeds and leaves best_metric unset.  The
call save_checkpoint(1, 3) then satisfies the hypothesis of the claim (metric
present, best_metric unset), yet it does not set best_epoch/best_metric:
the promotion test compares 3 against the retained absent metric and raises
TypeError. -/
theorem C4_counterexample :
    isOkRes (save_checkpoint (mkCfg false 1) none 0 none initState).1 = true ∧
    (runOk (mkCfg false 1) [(0, none)] initState).best_metric = none ∧
    (save_checkpoint (mkCfg false 1) none 1 (some 3)
      (runOk (mkCfg false 1) [(0, none)] initState)).1 = .error .typeError ∧
    (save_checkpoint (mkCfg false 1) none 1 (some 3)
      (runOk (mkCfg false 1) [(0, none)] initState)).2.best_epoch ≠ some 1 ∧
    (save_checkpoint (mkCfg false 1) none 1 (some 3)
      (runOk (mkCfg false 1) [(0, none)] initState)).2.best_metric ≠ some 3 := by
  refine ⟨by decide, by decide, by decide, by decide, by decide⟩

/-- C4 amended: in every state satisfying the engine invariant, if a
fault-free call save_checkpoint(epoch, metric) with metric present completes
without raising and best_metric was unset or metric out-ranks it, then the
call sets best_epoch to epoch and best_metric to metric and links the fixed
best file. -/
theorem C4_best_update_amended (cfg : Config) (e : Nat) (x : ℚ) (s : SaverState)
    (hM : 1 ≤ cfg.max_history) (hInv : SInv cfg s)
    (hok : isOkRes (save_checkpoint cfg none e (some x) s).1 = true)
    (hb : bestBeats cfg.decreasing x s.best_metric = true) :
    (save_checkpoint cfg none e (some x) s).2.best_epoch = some e ∧
    (save_checkpoint cfg none e (some x) s).2.best_metric = some x ∧
    bestPath cfg ∈ (save_checkpoint cfg none e (some x) s).2.disk :=
  (save_checkpoint_ok_step cfg e (some x) s hM hInv hok).2.2.1 x rfl hb

theorem C4_best_update_amended_witness :
    (save_checkpoint (mkCfg false 2) none 0 (some 1) initState).2.best_epoch = some 0 ∧
    (save_checkpoint (mkCfg false 2) none 0 (some 1) initState).2.best_metric = some 1 ∧
    bestPath (mkCfg false 2) ∈
      (save_checkpoint (mkCfg false 2) none 0 (some 1) initState).2.disk :=
  C4_best_update_amended (mkCfg false 2) 0 1 initState (by decide)
    (SInv_init (mkCfg false 2)) (by decide) (by decide)

/-- C5 counterexample: a SaveCheckpoint call with an absent metric does not
always complete without error.  After one successful save of epoch 0 with
metric 1 (max_history = 2), saving epoch 1 with an absent metric is
promoted, but the re-sort compares the absent metric against the retained
one and the call raises TypeError. -/
theorem C5_counterexample :
    isOkRes (save_checkpoint (mkCfg false 2) none 0 (some 1) initState).1 = true ∧
    (save_checkpoint (mkCfg false 2) none 1 none
      (runOk (mkCfg false 2) [(0, some 1)] initState)).1 = .error .typeError := by
  refine ⟨by decide, by decide⟩

/-- C5 amended: a call with an absent metric always passes the promotion
test without any metric comparison (the test short-circuits on metric is
None); if the ranked history was empty before the call the call completes
without error and the history becomes the single unranked snapshot; but if
the history is non-empty and below capacity, the re-sort compares the
absent metric against a retained entry and the call raises TypeError. -/
theorem C5_absent_metric_amended (cfg : Config) (e : Nat) (s : SaverState)
    (hM : 1 ≤ cfg.max_history) :
    promotion_decision cfg none s.checkpoint_files = .ok true ∧
    (s.checkpoint_files = [] →
      rankedPath cfg e ∉ (place_last cfg none s).2.disk →
      isOkRes (save_checkpoint cfg none e none s).1 = true ∧
      (save_checkpoint cfg none e none s).2.checkpoint_files =
        [(rankedPath cfg e, none)]) ∧
    (s.checkpoint_files ≠ [] →
      s.checkpoint_files.length < cfg.max_history →
      rankedPath cfg e ∉ (place_last cfg none s).2.disk →
      (save_checkpoint cfg none e none s).1 = .error .typeError) := by
  refine ⟨?_, ?_, ?_⟩
  · unfold promotion_decision
    split
    · rfl
    · rfl
  · intro hemp hnd
    exact save_checkpoint_none_empty cfg e s hM hemp hnd
  · intro hne hlt hnd
    exact save_checkpoint_none_nonempty cfg e s hne hlt hnd

theorem C5_absent_metric_amended_witness :
    (isOkRes (save_checkpoint (mkCfg false 2) none 0 none initState).1 = true ∧
      (save_checkpoint (mkCfg false 2) none 0 none initState).2.checkpoint_files =
        [(rankedPath (mkCfg false 2) 0, none)]) ∧
    (save_checkpoint (mkCfg false 2) none 1 none
      (runOk (mkCfg false 2) [(0, some 1)] initState)).1 = .error .typeError :=
  ⟨(C5_absent_metric_amended (mkCfg false 2) 0 initState (by decide)).2.1
      (by decide) (by decide),
    (C5_absent_metric_amended (mkCfg false 2) 1
        (runOk (mkCfg false 2) [(0, some 1)] initState) (by decide)).2.2
      (by decide) (by decide) (by decide)⟩

/-- C6 counterexample: a failure of the ranked-slot hard link does not leave
the ranked history unchanged.  With max_history = 1 and one retained entry,
save_checkpoint(1, 2) with a fault injected at the ranked os.link call
propagates the error, but the eviction of line 124 has already run: the
in-memory ranked history went from one entry to empty before the failure
point. -/
theorem C6_counterexample :
    (runOk (mkCfg false 1) [(0, some 1)] initState).checkpoint_files =
      [("c-0.t", some 1)] ∧
    (save_checkpoint (mkCfg false 1) (some .rankedLink) 1 (some 2)
      (runOk (mkCfg false 1) [(0, some 1)] initState)).1 = .error .oserror ∧
    (save_checkpoint (mkCfg false 1) (some .rankedLink) 1 (some 2)
      (runOk (mkCfg false 1) [(0, some 1)] initState)).2.checkpoint_files = [] := by
  refine ⟨by decide, by decide, by decide⟩

/-- C6 amended: if serializing the snapshot, unlinking the old last file, or
renaming the temp file into place fails, the error propagates to the caller
and the in-memory ranked history is exactly what it was before the call.  A
failure of the ranked- or best-slot hard link still propagates, but the
ranked history may already have been mutated: an eviction precedes the
ranked link, and the append and re-sort precede the best link. -/
theorem C6_failure_amended (cfg : Config) (fault : Option FaultOp) (e : Nat)
    (m : Option ℚ) (s : SaverState)
    (h : fault = some .serialize ∨
         (fault = some .unlinkLast ∧ lastPath cfg ∈ diskAdd (tmpPath cfg) s.disk) ∨
         fault = some .renameLast) :
    (save_checkpoint cfg fault e m s).1 = .error .oserror ∧
    (save_checkpoint cfg fault e m s).2.checkpoint_files = s.checkpoint_files := by
  obtain ⟨s1, hpl⟩ : ∃ s1, place_last cfg fault s = (some .oserror, s1) := by
    rcases hq : place_last cfg fault s with ⟨o, s0⟩
    have ho : o = some .oserror := by
      rw [← place_last_fault_fst cfg fault s h, hq]
    exact ⟨s0, by rw [ho]⟩
  have hplf : s1.checkpoint_files = s.checkpoint_files := by
    have h0 := (place_last_state cfg fault s).1
    rw [hpl] at h0
    exact h0
  simp only [save_checkpoint, hpl]
  refine ⟨?_, hplf⟩
  trivial

theorem C6_failure_amended_witness :
    (save_checkpoint (mkCfg false 1) (some .serialize) 1 (some 2)
      (runOk (mkCfg false 1) [(0, some 1)] initState)).1 = .error .oserror ∧
    (save_checkpoint (mkCfg false 1) (some .serialize) 1 (some 2)
      (runOk (mkCfg false 1) [(0, some 1)] initState)).2.checkpoint_files =
      (runOk (mkCfg false 1) [(0, some 1)] initState).checkpoint_files :=
  C6_failure_amended (mkCfg false 1) (some .serialize) 1 (some 2)
    (runOk (mkCfg false 1) [(0, some 1)] initState) (Or.inl rfl)

/-- C7 counterexample: two SaveRecovery calls with the same epoch and batch
index leave current_recovery and previous_recovery equal to each other while
both are set, contradicting the claim that once both pointers are set they
are never equal. -/
theorem C7_counterexample :
    (runRec (mkCfg false 2) [(0, 0), (0, 0)] initState).curr_recovery_file =
      (runRec (mkCfg false 2) [(0, 0), (0, 0)] initState).last_recovery_file ∧
    (runRec (mkCfg false 2) [(0, 0), (0, 0)] initState).curr_recovery_file ≠ "" ∧
    (runRec (mkCfg false 2) [(0, 0), (0, 0)] initState).last_recovery_file ≠ "" := by
  refine ⟨by decide, by decide, by decide⟩

/-- C7 amended: after any sequence of SaveRecovery calls from the empty
state whose recovery file names are pairwise distinct (equivalently, whose
(epoch, batch_idx) arguments are pairwise distinct), every file on disk is
one of the two pointers, each non-empty pointer names an existing file, the
two pointers differ once both are set, and at most two files exist. -/
theorem C7_recovery_cap_amended (cfg : Config) (calls : List (Nat × Nat))
    (hnd : (calls.map (fun c => recoveryPath cfg c.1 c.2)).Nodup) :
    (∀ f ∈ (runRec cfg calls initState).disk,
      f = (runRec cfg calls initState).curr_recovery_file ∨
      f = (runRec cfg calls initState).last_recovery_file) ∧
    ((runRec cfg calls initState).curr_recovery_file ≠ "" →
      (runRec cfg calls initState).curr_recovery_file ∈
        (runRec cfg calls initState).disk) ∧
    ((runRec cfg calls initState).last_recovery_file ≠ "" →
      (runRec cfg calls initState).last_recovery_file ∈
        (runRec cfg calls initState).disk) ∧
    ((runRec cfg calls initState).curr_recovery_file ≠ "" →
      (runRec cfg calls initState).last_recovery_file ≠ "" →
      (runRec cfg calls initState).curr_recovery_file ≠
        (runRec cfg calls initState).last_recovery_file) ∧
    (runRec cfg calls initState).disk.length ≤ 2 := by
  have hinit : RInv initState [] := by
    unfold RInv
    simp [initState]
  obtain ⟨u2, h1, h2, h3, h4, h5, h6⟩ :=
    runRec_rinv cfg calls initState [] hinit (by simp) hnd
  refine ⟨h1, fun h => (h2 h).1, fun h => (h3 h).1, h4, ?_⟩
  exact length_le_two_of_mem h6 h1

theorem C7_recovery_cap_amended_witness :
    (runRec (mkCfg false 2) [(0, 0), (1, 0), (2, 0)] initState).disk.length ≤ 2 ∧
    (runRec (mkCfg false 2) [(0, 0), (1, 0), (2, 0)] initState).curr_recovery_file ≠
      (runRec (mkCfg false 2) [(0, 0), (1, 0), (2, 0)] initState).last_recovery_file :=
  ⟨(C7_recovery_cap_amended (mkCfg false 2) [(0, 0), (1, 0), (2, 0)] (by decide)).2.2.2.2,
    (C7_recovery_cap_amended (mkCfg false 2) [(0, 0), (1, 0), (2, 0)] (by decide)).2.2.2.1
      (by decide) (by decide)⟩

/-- C8 counterexample: the ranked sequence is not sorted after every
SaveCheckpoint call.  With max_history = 3 (increasing metric), save(0, 3)
succeeds; save(1, absent) appends and raises TypeError in the re-sort;
save(2, 5) passes the promotion test (the history is below capacity, no
metric is compared), appends and raises TypeError in the re-sort again.
The in-memory list is then [(c-0, 3), (c-1, none), (c-2, 5)], in which the
metric-5 entry out-ranks the earlier metric-3 entry, so the list is not
sorted most-preferred first — and a later successful, non-promoting call
save(3, 4) returns normally and leaves the unsorted list intact. -/
theorem C8_counterexample :
    (runCkpt (mkCfg false 3) [(none, 0, some 3), (none, 1, none), (none, 2, some 5)]
      initState).checkpoint_files =
      [("c-0.t", some 3), ("c-1.t", none), ("c-2.t", some 5)] ∧
    (save_checkpoint (mkCfg false 3) none 2 (some 5)
      (runCkpt (mkCfg false 3) [(none, 0, some 3), (none, 1, none)] initState)).1 =
      .error .typeError ∧
    isOkRes (save_checkpoint (mkCfg false 3) none 3 (some 4)
      (runCkpt (mkCfg false 3) [(none, 0, some 3), (none, 1, none), (none, 2, some 5)]
        initState)).1 = true ∧
    (save_checkpoint (mkCfg false 3) none 3 (some 4)
      (runCkpt (mkCfg false 3) [(none, 0, some 3), (none, 1, none), (none, 2, some 5)]
        initState)).2.checkpoint_files =
      [("c-0.t", some 3), ("c-1.t", none), ("c-2.t", some 5)] ∧
    ¬ List.Pairwise (presPref (mkCfg false 3))
      [("c-0.t", some 3), ("c-1.t", none), ("c-2.t", some 5)] := by
  refine ⟨by decide, by decide, by decide, by decide, ?_⟩
  intro h
  have h2 := (List.pairwise_cons.mp h).1 ("c-2.t", some 5) (by simp)
  have h3 := h2 3 5 rfl rfl
  exact absurd h3 (by decide)

/-- C8 amended: after every fault-free sequence of SaveCheckpoint calls in
which every call completes without raising, the ranked history is sorted by
metric in the configured direction with the most-preferred entry first (any
two entries with present metrics are ordered); one further call — even a
failing or fault-injected one — preserves this; and the re-sort of lines
129-131 behaves as a stable sort keyed solely on the metric: on success its
output is a sorted permutation of its input in which, for every key value,
the entries carrying that key appear exactly as in the input.  (After a call
that raises in the re-sort, the appended list can be left out of order, as
the counterexample shows.) -/
theorem C8_sort_order (cfg : Config) (hM : 1 ≤ cfg.max_history)
    (calls : List (Nat × Option ℚ)) (hok : okTrace cfg calls initState = true) :
    List.Pairwise (presPref cfg) (runOk cfg calls initState).checkpoint_files ∧
    (∀ (fault : Option FaultOp) (e : Nat) (m : Option ℚ),
      List.Pairwise (presPref cfg)
        (save_checkpoint cfg fault e m (runOk cfg calls initState)).2.checkpoint_files) ∧
    (∀ l out, pySortedEntries cfg l = .ok out →
      out.Perm l ∧ List.Sorted (entryLE cfg) out ∧
      ∀ q : Option ℚ,
        out.filter (fun en => en.2 == q) = l.filter (fun en => en.2 == q)) := by
  have hInv := runOk_inv cfg hM calls initState (SInv_init cfg) hok
  refine ⟨hInv.2.1, ?_, ?_⟩
  · intro fault e m
    exact save_checkpoint_pairwise cfg fault e m _ hInv.2.1 hInv.2.2.1
  · intro l out hs
    obtain ⟨hins, hperm, -⟩ := pySorted_ok_shape cfg l out hs
    refine ⟨hperm, ?_, ?_⟩
    · rw [hins]
      exact sorted_insertionSort_entryLE cfg l
    · intro q
      rw [hins]
      exact insertionSort_filter_key cfg q l

theorem C8_sort_order_witness :
    List.Pairwise (presPref (mkCfg false 2))
      (runOk (mkCfg false 2) [(0, some 1), (1, some 2)] initState).checkpoint_files :=
  (C8_sort_order (mkCfg false 2) (by decide) [(0, some 1), (1, some 2)] (by decide)).1

/-- C9: find_recovery filters the files on disk whose names start with the
joined recovery prefix and end with the configured extension; if there is no
match it returns the empty string, and otherwise it returns a match that is
lexicographically least among all matches.  The operation is a total
function of the state (it never raises). -/
theorem C9_find_recovery (cfg : Config) (s : SaverState) :
    (s.disk.filter
        (fun f => globMatch (joinPath cfg.recovery_dir cfg.recovery_pre)
          cfg.extension f) = [] →
      find_recovery cfg s = "") ∧
    (∀ f ∈ s.disk.filter
        (fun f => globMatch (joinPath cfg.recovery_dir cfg.recovery_pre)
          cfg.extension f),
      find_recovery cfg s ∈ s.disk.filter
        (fun f => globMatch (joinPath cfg.recovery_dir cfg.recovery_pre)
          cfg.extension f) ∧
      find_recovery cfg s ≤ f) := by
  haveI hT : IsTotal String (fun a b : String => a ≤ b) := ⟨fun a b => le_total a b⟩
  haveI hTr : IsTrans String (fun a b : String => a ≤ b) :=
    ⟨fun a b c hab hbc => le_trans hab hbc⟩
  have hperm := List.perm_insertionSort (fun a b : String => a ≤ b)
    (s.disk.filter
      (fun f => globMatch (joinPath cfg.recovery_dir cfg.recovery_pre) cfg.extension f))
  have hsorted := List.sorted_insertionSort (fun a b : String => a ≤ b)
    (s.disk.filter
      (fun f => globMatch (joinPath cfg.recovery_dir cfg.recovery_pre) cfg.extension f))
  constructor
  · intro h
    simp only [find_recovery]
    rw [h]
    rfl
  · intro f hf
    simp only [find_recovery]
    rcases hs2 : List.insertionSort (fun a b : String => a ≤ b)
        (s.disk.filter
          (fun f => globMatch (joinPath cfg.recovery_dir cfg.recovery_pre)
            cfg.extension f)) with - | ⟨f0, rest⟩
    · rw [hs2] at hperm
      have hnil := hperm.symm.eq_nil
      rw [hnil] at hf
      exact absurd hf (List.not_mem_nil f)
    · rw [hs2] at hperm hsorted
      constructor
      · exact hperm.subset (by simp)
      · have hfmem : f ∈ f0 :: rest := hperm.mem_iff.mpr hf
        rcases List.mem_cons.mp hfmem with h | h
        · rw [h]
        · exact List.rel_of_sorted_cons hsorted f h

theorem C9_find_recovery_witness :
    find_recovery (mkCfg false 2)
        { initState with disk := ["r-1-0.t", "b.t", "r-0-5.t"] } ∈
      (["r-1-0.t", "b.t", "r-0-5.t"] : List String).filter
        (fun f => globMatch (joinPath (mkCfg false 2).recovery_dir
          (mkCfg false 2).recovery_pre) (mkCfg false 2).extension f) ∧
    find_recovery (mkCfg false 2)
        { initState with disk := ["r-1-0.t", "b.t", "r-0-5.t"] } ≤ "r-1-0.t" :=
  (C9_find_recovery (mkCfg false 2)
      { initState with disk := ["r-1-0.t", "b.t", "r-0-5.t"] }).2
    "r-1-0.t" (by decide)

/-- C10 counterexample: with max_history = 1 (increasing metric), after a
promoted save of epoch 0 the ranked file for epoch 0 exists on disk; a
second call save_checkpoint(0, 2) reaches the promotion step with that file
still on disk (the promotion test answers true), yet the call succeeds: the
eviction inside the same call removes the epoch-0 ranked file before the
hard link, so no file-exists error is raised and both same-epoch promoted
calls succeed. -/
theorem C10_counterexample :
    rankedPath (mkCfg false 1) 0 ∈
      (runOk (mkCfg false 1) [(0, some 1)] initState).disk ∧
    promotion_decision (mkCfg false 1) (some 2)
      (runOk (mkCfg false 1) [(0, some 1)] initState).checkpoint_files = .ok true ∧
    isOkRes (save_checkpoint (mkCfg false 1) none 0 (some 2)
      (runOk (mkCfg false 1) [(0, some 1)] initState)).1 = true := by
  refine ⟨by decide, by decide, by decide⟩

/-- C10 amended: if the promotion test passes and the ranked file name for
the epoch still exists on disk at the moment the hard link executes — that
is, after the eviction step of the same call, if any — then the hard-link
step fails with a file-exists error that propagates to the caller. -/
theorem C10_link_collision_amended (cfg : Config) (fault : Option FaultOp) (e : Nat)
    (m : Option ℚ) (s s1 : SaverState)
    (hpl : place_last cfg fault s = (none, s1))
    (hpd : promotion_decision cfg m s1.checkpoint_files = .ok true)
    (hd : rankedPath cfg e ∈
      (if cfg.max_history ≤ s1.checkpoint_files.length
       then cleanup_checkpoints cfg 1 s1 else s1).disk) :
    (save_checkpoint cfg fault e m s).1 = .error .fileExists := by
  simp only [save_checkpoint, hpl, hpd]
  rw [if_pos (by trivial)]
  unfold promote_step promote_core
  rw [if_pos hd]

theorem C10_link_collision_amended_witness :
    (save_checkpoint (mkCfg false 2) none 0 (some 2)
      { initState with
        checkpoint_files := [("c-0.t", some 1)],
        disk := ["c-0.t"] }).1 = .error .fileExists :=
  C10_link_collision_amended (mkCfg false 2) none 0 (some 2)
    { initState with checkpoint_files := [("c-0.t", some 1)], disk := ["c-0.t"] }
    (place_last (mkCfg false 2) none
      { initState with checkpoint_files := [("c-0.t", some 1)], disk := ["c-0.t"] }).2
    (by decide) (by decide) (by decide)

end CkptSaver
